import Mathlib

/-!
Shallow embedding of the `weatherman` module (src/weatherman/runner.py and
src/weatherman/helper.py): the data reader, the three calculation strategies,
the four report strategies and the pipeline driver, together with proofs of
the specification claims about them.

Python values are modelled explicitly: floats as exact rationals (`Q`),
dictionaries as
insertion-ordered association lists (`dictInsert` keeps first-insertion
position and overwrites in place, exactly like CPython dicts), and fallible
code as `Except Err`.
-/

namespace Weatherman

/-- Exact rational with an explicit positive denominator, used to model
Python floats: the decimal data this program reads and the arithmetic the
claims are about are exact in this representation, and every operation is
plain integer arithmetic (no gcd normalisation). All values built by the
embedding have a positive denominator. -/
structure Q where
  n : Int
  d : Nat
deriving DecidableEq

/-- Sum of two rationals over the common product denominator. -/
def Q.addQ (a b : Q) : Q := ⟨a.n * b.d + b.n * a.d, a.d * b.d⟩

/-- Division of a rational by a positive count (`total / count`). -/
def Q.divNat (a : Q) (c : Nat) : Q := ⟨a.n, a.d * c⟩

/-- Floor of a rational with positive denominator (Lean's `/` on `Int` is
euclidean division, which is floor division for a positive divisor). -/
def floorQ (q : Q) : Int := q.n / (q.d : Int)

/-- Truncation of a rational toward zero; this is what Python `int(float)`
does. -/
def truncQ (q : Q) : Int := q.n.tdiv q.d

/-- Python value stored in a reading: either a string or a float (modelled
as an exact rational). -/
inductive Value where
  | str (s : String)
  | num (q : Q)
deriving DecidableEq

/-- Abstract error kinds. Each constructor is used at exactly the program
point where CPython would raise: `keyError` for a missing dict key,
`indexError` for `list[0]` on an empty list, `noMatchingFile` for the
`_get_files(...)[0]` IndexError that the spec names `NoMatchingFileError`,
`dateParseError` for a failing `strptime`, `numericCoercion` for a failing
`float()`/`int()` conversion, `typeError` for adding a non-numeric value,
and `emptyRange` for `max()`/`min()` on an empty dict or a zero division,
which the spec names `EmptyRangeError`. -/
inductive Err where
  | keyError
  | indexError
  | noMatchingFile
  | dateParseError
  | numericCoercion
  | typeError
  | emptyRange
deriving DecidableEq

/-- Decidable equality for `Except`, used to state and evaluate concrete
runs of the fallible pipeline functions. -/
instance {ε α : Type} [DecidableEq ε] [DecidableEq α] : DecidableEq (Except ε α) :=
  fun x y =>
    match x, y with
    | .ok a, .ok b =>
      if h : a = b then .isTrue (by rw [h]) else .isFalse (fun hh => by cases hh; exact h rfl)
    | .ok _, .error _ => .isFalse (fun hh => by cases hh)
    | .error _, .ok _ => .isFalse (fun hh => by cases hh)
    | .error a, .error b =>
      if h : a = b then .isTrue (by rw [h]) else .isFalse (fun hh => by cases hh; exact h rfl)

/-- One parsed csv row as returned by `read_csv`: field name to raw string. -/
abbrev RawRow := List (String × String)

/-- One Daily Reading: field name to typed value. -/
abbrev Row := List (String × Value)

/-- Monthly Readings: day of month to Daily Reading, in insertion order. -/
abbrev Monthly := List (Nat × Row)

/-- Yearly Readings: month name to Monthly Readings, in insertion order. -/
abbrev Yearly := List (String × Monthly)

/-- Python dict lookup `d[k]` on an insertion-ordered association list
(`none` models a raised KeyError). -/
def lookup? {α : Type} (l : List (String × α)) (k : String) : Option α :=
  match l with
  | [] => none
  | (k', v) :: t => if k' = k then some v else lookup? t k

/-- Python dict assignment `d[k] = v`: overwrites in place if the key is
present (keeping its position), otherwise appends, like a CPython dict. -/
def dictInsert {α : Type} [DecidableEq α] {β : Type} (l : List (α × β)) (k : α) (v : β) :
    List (α × β) :=
  match l with
  | [] => [(k, v)]
  | (k', v') :: t => if k' = k then (k, v) :: t else (k', v') :: dictInsert t k v

/-- Decimal digit characters of a natural number, fuel-driven exactly like a
repeated divide-by-ten loop; models the digits of Python `str(n)`. -/
def natDigs (fuel : Nat) (n : Nat) (acc : List Char) : List Char :=
  match fuel with
  | 0 => acc
  | f + 1 =>
    let d := Char.ofNat (48 + n % 10)
    let n2 := n / 10
    if n2 = 0 then d :: acc else natDigs f n2 (d :: acc)

/-- Python `str(n)` for a natural number. -/
def natStr (n : Nat) : String := String.mk (natDigs (n + 1) n [])

/-- Python `str(i)` for an integer. -/
def intStr : Int → String
  | .ofNat m => natStr m
  | .negSucc m => "-" ++ natStr (m + 1)

/-- Python `'%02d' % day`: two-digit zero padding. -/
def pad2 (d : Nat) : String := if d < 10 then "0" ++ natStr d else natStr d

/-- Digits of a character list read as a natural number. -/
def digitsToNat (l : List Char) : Nat :=
  l.foldl (fun a c => a * 10 + (c.toNat - 48)) 0

/-- Parse of a non-empty all-digit character list as a natural number. -/
def parseNat (l : List Char) : Option Nat :=
  if l ≠ [] ∧ l.all Char.isDigit then some (digitsToNat l) else none

/-- Split of a character list on a separator character. -/
def splitOnChar (c : Char) : List Char → List (List Char)
  | [] => [[]]
  | x :: xs =>
    let r := splitOnChar c xs
    if x = c then [] :: r
    else
      match r with
      | [] => [[x]]
      | h :: t => (x :: h) :: t

/-- Model of Python `float(s)` on the decimal numerals this program reads:
an optional sign, then digits with at most one decimal point (at least one
digit overall); `none` models the raised ValueError. -/
def parseFloat (s : String) : Option Q :=
  let core : List Char → Option Q := fun l =>
    match splitOnChar '.' l with
    | [ip] => (parseNat ip).map (fun n => (⟨(n : Int), 1⟩ : Q))
    | [ip, fp] =>
      if (ip ++ fp) ≠ [] ∧ (ip ++ fp).all Char.isDigit then
        some (⟨(digitsToNat (ip ++ fp) : Int), 10 ^ fp.length⟩ : Q)
      else none
    | _ => none
  match s.toList with
  | '-' :: t => (core t).map (fun q => ⟨-q.n, q.d⟩)
  | '+' :: t => core t
  | t => core t

/-- Model of Python `int(s)` on a string: optional sign then digits. -/
def parseIntStr (s : String) : Option Int :=
  match s.toList with
  | '-' :: t => (parseNat t).map (fun n => -(n : Int))
  | '+' :: t => (parseNat t).map (fun n => (n : Int))
  | t => (parseNat t).map (fun n => (n : Int))

/-- Python `int(value)` on a stored reading value: floats truncate toward
zero, strings must parse as integers (ValueError otherwise). -/
def pyInt : Value → Except Err Int
  | .num q => .ok (truncQ q)
  | .str s =>
    match parseIntStr s with
    | some n => .ok n
    | none => .error .numericCoercion

/-- Model of Python 3 built-in `round` to an integer: round half to even
(banker's rounding), as documented for the Python builtin. With
`f = ⌊q⌋` and `r = q - f ∈ [0, 1)`, the comparison `r < 1/2` is
`2 * r.n < r.d` because the denominator is positive. -/
def pyRound (q : Q) : Int :=
  let f : Int := floorQ q
  let r : Q := ⟨q.n - f * (q.d : Int), q.d⟩
  if 2 * r.n < (r.d : Int) then f
  else if (r.d : Int) < 2 * r.n then f + 1
  else if f % 2 = 0 then f else f + 1

/-- Abbreviated month name, as `strftime('%b')` in the C locale. -/
def monthAbbrev : Nat → String
  | 1 => "Jan" | 2 => "Feb" | 3 => "Mar" | 4 => "Apr" | 5 => "May" | 6 => "Jun"
  | 7 => "Jul" | 8 => "Aug" | 9 => "Sep" | 10 => "Oct" | 11 => "Nov" | 12 => "Dec"
  | _ => ""

/-- Full month name, as `strftime('%B')` in the C locale. -/
def monthFull : Nat → String
  | 1 => "January" | 2 => "February" | 3 => "March" | 4 => "April"
  | 5 => "May" | 6 => "June" | 7 => "July" | 8 => "August"
  | 9 => "September" | 10 => "October" | 11 => "November" | 12 => "December"
  | _ => ""

/-- Model of `datetime.strptime(s, '%Y/%m')`, keeping year and month;
`none` models the raised ValueError (the spec's `DateParseError`). -/
def parseYm (s : String) : Option (Nat × Nat) :=
  match splitOnChar '/' s.toList with
  | [ys, ms] =>
    match parseNat ys, parseNat ms with
    | some y, some m => if 1 ≤ m ∧ m ≤ 12 then some (y, m) else none
    | _, _ => none
  | _ => none

/-- Model of `datetime.strptime(s, '%Y-%m-%d')`, keeping year, month and
day; `none` models the raised ValueError. -/
def parseYmd (s : String) : Option (Nat × Nat × Nat) :=
  match splitOnChar '-' s.toList with
  | [ys, ms, ds] =>
    match parseNat ys, parseNat ms, parseNat ds with
    | some y, some m, some d =>
      if 1 ≤ m ∧ m ≤ 12 ∧ 1 ≤ d ∧ d ≤ 31 then some (y, m, d) else none
    | _, _, _ => none
  | _ => none

/-- Check that the character list `p` starts the character list `l`. -/
def listStartsWith : List Char → List Char → Bool
  | [], _ => true
  | _ :: _, [] => false
  | a :: t, b :: u => a = b && listStartsWith t u

/-- Python `q in s` on strings: substring containment. -/
def strContains (s q : String) : Bool :=
  (List.range (s.toList.length + 1)).any
    (fun i => listStartsWith q.toList (s.toList.drop i))

/-- Python `s.endswith(suf)`. -/
def strEndsWith (s suf : String) : Bool :=
  listStartsWith suf.toList.reverse s.toList.reverse

/-- Filesystem as the pipeline sees it: the directory listing (in
`os.listdir` order) and, per file name, the rows `read_csv` parses from it
(header already consumed and its first column renamed to `'PKT'`). -/
structure FS where
  listing : List String
  content : String → List RawRow

/-- Headers kept as strings by the reader (`DataReader.str_headers`). -/
def str_headers : List String := ["PKT", "Events"]

/-- Embedding of `DataReader._get_files`: all listed names containing the
query and ending in `.txt`, in listing order. -/
def get_files (fs : FS) (query : String) : List String :=
  fs.listing.filter (fun f => strContains f query && strEndsWith f ".txt")

/-- Embedding of `DataReader._get_daily_readings`: a field whose name is
not in `str_headers` and whose raw value is non-empty is coerced with
`float`, every other field is kept as its raw string. -/
def get_daily_readings : RawRow → Except Err Row
  | [] => .ok []
  | (h, v) :: t =>
    if h ∉ str_headers ∧ v ≠ "" then
      match parseFloat v with
      | none => .error .numericCoercion
      | some q => (get_daily_readings t).map (fun r => (h, Value.num q) :: r)
    else (get_daily_readings t).map (fun r => (h, Value.str v) :: r)

/-- Loop body of `DataReader.get_monthly_readings`: each row keyed by the
day parsed from its `'PKT'` field, values typed by `_get_daily_readings`. -/
def monthly_from_rows_go (acc : Monthly) : List RawRow → Except Err Monthly
  | [] => .ok acc
  | row :: t =>
    match lookup? row "PKT" with
    | none => .error .keyError
    | some pkt =>
      match parseYmd pkt with
      | none => .error .dateParseError
      | some (_, _, d) =>
        match get_daily_readings row with
        | .error e => .error e
        | .ok dr => monthly_from_rows_go (dictInsert acc d dr) t

/-- Row-to-Monthly-Readings part of `DataReader.get_monthly_readings`
(the shared loop used by both the independent and the yearly path). -/
def monthly_from_rows (rows : List RawRow) : Except Err Monthly :=
  monthly_from_rows_go [] rows

/-- Embedding of `DataReader.get_monthly_readings` in independent mode:
derives the `{year}_{Mon}` query from the `YYYY/M` report date, takes the
first matching file (`IndexError` on none, the spec's
`NoMatchingFileError`) and builds the Monthly Readings from its rows. -/
def get_monthly_readings (fs : FS) (report_date : String) : Except Err Monthly :=
  match parseYm report_date with
  | none => .error .dateParseError
  | some (y, m) =>
    match get_files fs (natStr y ++ "_" ++ monthAbbrev m) with
    | [] => .error .noMatchingFile
    | f :: _ => monthly_from_rows (fs.content f)

/-- Loop of `DataReader.get_yearly_readings` over the matched files: the
month name comes from the first parsed row (`IndexError` if the file has
no data rows), and the file's rows are reused for the Monthly Readings. -/
def get_yearly_readings_go (fs : FS) (acc : Yearly) : List String → Except Err Yearly
  | [] => .ok acc
  | f :: t =>
    match fs.content f with
    | [] => .error .indexError
    | r0 :: _ =>
      match lookup? r0 "PKT" with
      | none => .error .keyError
      | some pkt =>
        match parseYmd pkt with
        | none => .error .dateParseError
        | some (_, m, _) =>
          match monthly_from_rows (fs.content f) with
          | .error e => .error e
          | .ok monthly => get_yearly_readings_go fs (dictInsert acc (monthFull m) monthly) t

/-- Embedding of `DataReader.get_yearly_readings`. -/
def get_yearly_readings (fs : FS) (report_date : String) : Except Err Yearly :=
  get_yearly_readings_go fs [] (get_files fs report_date)

/-- Label `f'{day} {month}'` keying the three extremes dictionaries. -/
def day_label (day : Nat) (month : String) : String :=
  natStr day ++ " " ++ month

/-- Three accumulating dictionaries of `Calculator.compute`:
max-temperature, min-temperature and max-humidity entries. -/
abbrev Entries3 := List (String × Int) × List (String × Int) × List (String × Int)

/-- One field of one row inside the loop of `Calculator.compute`: look the
field up (KeyError if absent), skip it when empty, otherwise store its
`int` under the `'{day} {month}'` label. -/
def entryStep (field : String) (es : List (String × Int)) (label : String) (row : Row) :
    Except Err (List (String × Int)) :=
  match lookup? row field with
  | none => .error .keyError
  | some v =>
    if v = .str "" then .ok es
    else (pyInt v).map (fun n => dictInsert es label n)

/-- One row of the loop of `Calculator.compute`: the three fields in
source order. -/
def computeRow (st : Entries3) (month : String) (day : Nat) (row : Row) :
    Except Err Entries3 :=
  match entryStep "Max TemperatureC" st.1 (day_label day month) row with
  | .error e => .error e
  | .ok mx =>
    match entryStep "Min TemperatureC" st.2.1 (day_label day month) row with
    | .error e => .error e
    | .ok mn =>
      match entryStep "Max Humidity" st.2.2 (day_label day month) row with
      | .error e => .error e
      | .ok hu => .ok (mx, mn, hu)

/-- Inner loop of `Calculator.compute` over a month's days. -/
def computeMonth (st : Entries3) (month : String) : Monthly → Except Err Entries3
  | [] => .ok st
  | (d, row) :: t =>
    match computeRow st month d row with
    | .error e => .error e
    | .ok st2 => computeMonth st2 month t

/-- Outer loop of `Calculator.compute` over the months. -/
def computeEntriesGo (st : Entries3) : Yearly → Except Err Entries3
  | [] => .ok st
  | (m, days) :: t =>
    match computeMonth st m days with
    | .error e => .error e
    | .ok st2 => computeEntriesGo st2 t

/-- Dictionary-building phase of `Calculator.compute` (lines 197-204). -/
def computeEntries (readings : Yearly) : Except Err Entries3 :=
  computeEntriesGo ([], [], []) readings

/-- Fold of Python `max(d, key=lambda k: d[k])` over the remaining entries:
a later entry replaces the current best only when strictly greater, so the
first entry attaining the maximum wins ties. -/
def pyMaxGo (best : String × Int) : List (String × Int) → String × Int
  | [] => best
  | a :: t => pyMaxGo (if best.2 < a.2 then a else best) t

/-- Python `max(d, key=lambda k: d[k])` on an insertion-ordered dict,
returning the winning entry; `none` models the ValueError on an empty dict
(the spec's `EmptyRangeError`). -/
def pyMaxList : List (String × Int) → Option (String × Int)
  | [] => none
  | x :: xs => some (pyMaxGo x xs)

/-- Fold of Python `min(d, key=lambda k: d[k])`: a later entry replaces the
current best only when strictly smaller. -/
def pyMinGo (best : String × Int) : List (String × Int) → String × Int
  | [] => best
  | a :: t => pyMinGo (if a.2 < best.2 then a else best) t

/-- Python `min(d, key=lambda k: d[k])`; `none` models the ValueError on an
empty dict. -/
def pyMinList : List (String × Int) → Option (String × Int)
  | [] => none
  | x :: xs => some (pyMinGo x xs)

/-- Result dictionary of the default `Calculator.compute`. -/
structure ExtSummary where
  max_temp : Int
  max_date : String
  min_temp : Int
  min_date : String
  max_humidity : Int
  humidity_date : String
deriving DecidableEq

/-- Embedding of the default `Calculator.compute`: build the three labelled
dictionaries over every (month, day) of the Yearly Readings, then take the
max/min/max entry of each (first occurrence winning ties). -/
def compute (readings : Yearly) : Except Err ExtSummary :=
  match computeEntries readings with
  | .error e => .error e
  | .ok (mx, mn, hu) =>
    match pyMaxList mx with
    | none => .error .emptyRange
    | some maxE =>
      match pyMinList mn with
      | none => .error .emptyRange
      | some minE =>
        match pyMaxList hu with
        | none => .error .emptyRange
        | some huE => .ok ⟨maxE.2, maxE.1, minE.2, minE.1, huE.2, huE.1⟩

/-- Result dictionary of `compute_monthly_average`. -/
structure AvgSummary where
  max_temp_avg : Int
  min_temp_avg : Int
  mean_humidity_avg : Int
deriving DecidableEq

/-- Accumulator state of the loop of `compute_monthly_average`: total and
count for each of the three fields. -/
structure AvgAcc where
  totMax : Q
  cntMax : Nat
  totMin : Q
  cntMin : Nat
  totHum : Q
  cntHum : Nat

/-- One field inside the loop of `compute_monthly_average`: skip the empty
string, add a float to the running total (a non-empty string would raise a
TypeError in `0 + value`). -/
def avgStep (field : String) (tot : Q) (cnt : Nat) (row : Row) :
    Except Err (Q × Nat) :=
  match lookup? row field with
  | none => .error .keyError
  | some v =>
    if v = .str "" then .ok (tot, cnt)
    else
      match v with
      | .num q => .ok (tot.addQ q, cnt + 1)
      | .str _ => .error .typeError

/-- Loop of `compute_monthly_average` over the month's days. -/
def avgGo (acc : AvgAcc) : Monthly → Except Err AvgAcc
  | [] => .ok acc
  | (_, row) :: t =>
    match avgStep "Max TemperatureC" acc.totMax acc.cntMax row with
    | .error e => .error e
    | .ok (t1, c1) =>
      match avgStep "Min TemperatureC" acc.totMin acc.cntMin row with
      | .error e => .error e
      | .ok (t2, c2) =>
        match avgStep "Mean Humidity" acc.totHum acc.cntHum row with
        | .error e => .error e
        | .ok (t3, c3) => avgGo ⟨t1, c1, t2, c2, t3, c3⟩ t

/-- Embedding of the strategy function `compute_monthly_average`: sum and
count the non-empty values of the three fields over the month, then round
each mean with Python's `round` (a zero count is the ZeroDivisionError the
spec names `EmptyRangeError`). -/
def compute_monthly_average (readings : Monthly) : Except Err AvgSummary :=
  match avgGo ⟨⟨0, 1⟩, 0, ⟨0, 1⟩, 0, ⟨0, 1⟩, 0⟩ readings with
  | .error e => .error e
  | .ok a =>
    if a.cntMax = 0 then .error .emptyRange
    else if a.cntMin = 0 then .error .emptyRange
    else if a.cntHum = 0 then .error .emptyRange
    else .ok ⟨pyRound (a.totMax.divNat a.cntMax),
              pyRound (a.totMin.divNat a.cntMin),
              pyRound (a.totHum.divNat a.cntHum)⟩

/-- Loop of `compute_min_max` over the month's days: both temperature
fields are looked up (KeyError if absent), and only days where both are
non-empty get an integer-truncated pair stored under their day key. -/
def compute_min_max_go (acc : List (Nat × Int × Int)) : Monthly →
    Except Err (List (Nat × Int × Int))
  | [] => .ok acc
  | (day, row) :: t =>
    match lookup? row "Max TemperatureC" with
    | none => .error .keyError
    | some mx =>
      match lookup? row "Min TemperatureC" with
      | none => .error .keyError
      | some mn =>
        if mx ≠ .str "" ∧ mn ≠ .str "" then
          match pyInt mx with
          | .error e => .error e
          | .ok a =>
            match pyInt mn with
            | .error e => .error e
            | .ok b => compute_min_max_go (dictInsert acc day (a, b)) t
        else compute_min_max_go acc t

/-- Embedding of the strategy function `compute_min_max`. -/
def compute_min_max (readings : Monthly) : Except Err (List (Nat × Int × Int)) :=
  compute_min_max_go [] readings

/-- ANSI escape for red text (module attribute `RED`). -/
def RED : String := "\x1b[91m"

/-- ANSI escape for blue text (module attribute `BLUE`). -/
def BLUE : String := "\x1b[34m"

/-- ANSI escape resetting the text color (module attribute `RESET`). -/
def RESET : String := "\x1b[0m"

/-- Python `'+' * n`: a run of markers, empty for a non-positive count. -/
def plusRun (n : Int) : String := String.mk (List.replicate n.toNat '+')

/-- Structured result returned by a report strategy. -/
inductive Report where
  | extremes (date highestVal highestDate lowestVal lowestDate humVal humDate : String)
  | averages (date highestAvg lowestAvg avgMeanHumidity : String)
  | emptyR
deriving DecidableEq

/-- Summary handed from a Calculator to a ReportGenerator; the shape
depends on the active calculation strategy. -/
inductive Summary where
  | extremes (e : ExtSummary)
  | averages (a : AvgSummary)
  | minMax (days : List (Nat × Int × Int))
deriving DecidableEq

/-- Embedding of the default `ReportGenerator.generate_report`: the three
printed lines and the structured extremes result (a Summary of another
shape would raise a KeyError on `results['max_temp']`). -/
def generate_report (report_date : String) : Summary → Except Err (List String × Report)
  | .extremes e =>
    .ok ([ "Highest: " ++ intStr e.max_temp ++ "C on " ++ e.max_date,
           "Lowest: " ++ intStr e.min_temp ++ "C on " ++ e.min_date,
           "Humidity: " ++ intStr e.max_humidity ++ "% on " ++ e.humidity_date ],
         .extremes report_date (intStr e.max_temp ++ "C") e.max_date
           (intStr e.min_temp ++ "C") e.min_date
           (intStr e.max_humidity ++ "%") e.humidity_date)
  | _ => .error .keyError

/-- Embedding of the strategy function `generate_average_report`. -/
def generate_average_report (report_date : String) : Summary →
    Except Err (List String × Report)
  | .averages a =>
    .ok ([ "Highest Average: " ++ intStr a.max_temp_avg ++ "C",
           "Lowest Average: " ++ intStr a.min_temp_avg ++ "C",
           "Average Mean Humidity: " ++ intStr a.mean_humidity_avg ++ "%" ],
         .averages report_date (intStr a.max_temp_avg ++ "C")
           (intStr a.min_temp_avg ++ "C") (intStr a.mean_humidity_avg ++ "%"))
  | _ => .error .keyError

/-- Month-year header line printed by both bar-chart reports
(`strftime('%B %Y')` of the parsed report date). -/
def barHeader (y m : Nat) : String := monthFull m ++ " " ++ natStr y

/-- Red max-temperature bar line of `generate_multiple_bar_report`. -/
def mbMaxLine (day : Nat) (mx : Int) : String :=
  pad2 day ++ " " ++ RED ++ plusRun mx ++ " " ++ RESET ++ intStr mx ++ "C"

/-- Blue min-temperature bar line of `generate_multiple_bar_report`. -/
def mbMinLine (day : Nat) (mn : Int) : String :=
  pad2 day ++ " " ++ BLUE ++ plusRun mn ++ " " ++ RESET ++ intStr mn ++ "C"

/-- Embedding of the strategy function `generate_multiple_bar_report`: the
header then, iterating the Summary mapping in its own order, two bar lines
per day; the structured result is empty. -/
def generate_multiple_bar_report (report_date : String) : Summary →
    Except Err (List String × Report)
  | .minMax days =>
    match parseYm report_date with
    | none => .error .dateParseError
    | some (y, m) =>
      .ok (barHeader y m ::
             days.flatMap (fun p => [mbMaxLine p.1 p.2.1, mbMinLine p.1 p.2.2]),
           .emptyR)
  | _ => .error .keyError

/-- Combined bar line of `generate_single_bar_report`. -/
def sbLine (day : Nat) (mx mn : Int) : String :=
  pad2 day ++ " " ++ BLUE ++ plusRun mn ++ RED ++ plusRun mx ++ " " ++ RESET ++
    intStr mn ++ "C - " ++ intStr mx ++ "C"

/-- Embedding of the strategy function `generate_single_bar_report`. -/
def generate_single_bar_report (report_date : String) : Summary →
    Except Err (List String × Report)
  | .minMax days =>
    match parseYm report_date with
    | none => .error .dateParseError
    | some (y, m) =>
      .ok (barHeader y m :: days.map (fun p => sbLine p.1 p.2.1 p.2.2), .emptyR)
  | _ => .error .keyError

/-- Readings structure held by a Calculator: the yearly or the monthly
shape, depending on which reader path produced it. -/
inductive Readings where
  | yearly (r : Yearly)
  | monthly (r : Monthly)

/-- Calculation strategy selected in `main` (`None` meaning the default
`Calculator.compute`). -/
inductive CalcStrategy where
  | defaultCompute
  | monthlyAverage
  | minMax

/-- Report strategy selected in `main` (`None` meaning the default
`ReportGenerator.generate_report`). -/
inductive ReportStrategy where
  | defaultReport
  | average
  | multipleBar
  | singleBar

/-- Dispatch of `Calculator.compute` under the installed strategy. Running
a monthly strategy on the yearly shape (or vice versa) crashes in Python
with a type-shaped error; `typeError` stands for that mismatch. -/
def run_calc : CalcStrategy → Readings → Except Err Summary
  | .defaultCompute, .yearly r =>
    match compute r with
    | .error e => .error e
    | .ok s => .ok (.extremes s)
  | .monthlyAverage, .monthly r =>
    match compute_monthly_average r with
    | .error e => .error e
    | .ok s => .ok (.averages s)
  | .minMax, .monthly r =>
    match compute_min_max r with
    | .error e => .error e
    | .ok s => .ok (.minMax s)
  | _, _ => .error .typeError

/-- Dispatch of `ReportGenerator.generate_report` under the installed
strategy. -/
def run_report : ReportStrategy → String → Summary → Except Err (List String × Report)
  | .defaultReport, d, s => generate_report d s
  | .average, d, s => generate_average_report d s
  | .multipleBar, d, s => generate_multiple_bar_report d s
  | .singleBar, d, s => generate_single_bar_report d s

/-- Reader step of the `process_args` loop: yearly or monthly readings per
the mode flag. -/
def get_readings (fs : FS) (date : String) (yearly : Bool) : Except Err Readings :=
  if yearly then
    match get_yearly_readings fs date with
    | .error e => .error e
    | .ok r => .ok (Readings.yearly r)
  else
    match get_monthly_readings fs date with
    | .error e => .error e
    | .ok r => .ok (Readings.monthly r)

/-- Loop body of `process_args` for one date (continued): calculator and
report generator wired after the reader. -/
def process_one (fs : FS) (date : String) (cs : CalcStrategy)
    (rs : ReportStrategy) (yearly : Bool) : Except Err Report :=
  match get_readings fs date yearly with
  | .error e => .error e
  | .ok readings =>
    match run_calc cs readings with
    | .error e => .error e
    | .ok s =>
      match run_report rs date s with
      | .error e => .error e
      | .ok (_, r) => .ok r

/-- Embedding of `process_args`: one report per date, in input order; an
uncaught error on any date propagates and aborts the whole batch. -/
def process_args (fs : FS) (dates : List String) (cs : CalcStrategy)
    (rs : ReportStrategy) (yearly : Bool) : Except Err (List Report) :=
  match dates with
  | [] => .ok []
  | d :: t =>
    match process_one fs d cs rs yearly with
    | .error e => .error e
    | .ok r =>
      match process_args fs t cs rs yearly with
      | .error e => .error e
      | .ok rest => .ok (r :: rest)

/-- Cached equality instance for Monthly Readings. -/
instance decEqMonthly : DecidableEq Monthly := inferInstance

/-- Cached equality instance for Yearly Readings (the nested synthesis
otherwise exceeds the default search size). -/
instance decEqYearly : DecidableEq Yearly := inferInstance

/-- Field of a Daily Reading that is a float or the empty string, the shape
every reader-produced reading has; rows satisfying this make the
calculation strategies total. -/
def okField (row : Row) (f : String) : Bool :=
  match lookup? row f with
  | some (.num _) => true
  | some (.str s) => s == ""
  | none => false

/-- Well-formedness of Yearly Readings for the default `compute`: the three
consulted fields are present and float-or-empty in every Daily Reading. -/
def WFyearly (r : Yearly) : Bool :=
  r.all (fun p => p.2.all (fun q =>
    okField q.2 "Max TemperatureC" && okField q.2 "Min TemperatureC" &&
      okField q.2 "Max Humidity"))

/-- Well-formedness of Monthly Readings for `compute_monthly_average`. -/
def WFavg (r : Monthly) : Bool :=
  r.all (fun q =>
    okField q.2 "Max TemperatureC" && okField q.2 "Min TemperatureC" &&
      okField q.2 "Mean Humidity")

/-- Well-formedness of Monthly Readings for `compute_min_max`. -/
def WFminmax (r : Monthly) : Bool :=
  r.all (fun q => okField q.2 "Max TemperatureC" && okField q.2 "Min TemperatureC")

/-- Entry contributed by one day to one of the three extremes dictionaries
of `compute`: the `'{day} {month}'` label with the truncated float, or
nothing when the field is empty (or not a float). -/
def fieldEntry (field : String) (month : String) (p : Nat × Row) : Option (String × Int) :=
  match lookup? p.2 field with
  | some (.num q) => some (day_label p.1 month, truncQ q)
  | _ => none

/-- Entries of one field over the whole Yearly Readings in file-then-row
iteration order. -/
def specEntries (field : String) (r : Yearly) : List (String × Int) :=
  r.flatMap (fun p => p.2.filterMap (fieldEntry field p.1))

/-- Labels `'{day} {month}'` of every (month, day) of the Yearly Readings,
in file-then-row iteration order. -/
def labelsOf (r : Yearly) : List String :=
  r.flatMap (fun p => p.2.map (fun q => day_label q.1 p.1))

/-- Entry `p` is the first of `l` attaining the maximum value: everything
before it is strictly below, everything in `l` is at most its value. -/
def FirstMax (l : List (String × Int)) (p : String × Int) : Prop :=
  ∃ l1 l2, l = l1 ++ p :: l2 ∧ (∀ a ∈ l1, a.2 < p.2) ∧ ∀ a ∈ l, a.2 ≤ p.2

/-- Entry `p` is the first of `l` attaining the minimum value. -/
def FirstMin (l : List (String × Int)) (p : String × Int) : Prop :=
  ∃ l1 l2, l = l1 ++ p :: l2 ∧ (∀ a ∈ l1, p.2 < a.2) ∧ ∀ a ∈ l, p.2 ≤ a.2

/-- Non-empty (float) values of one field over a month, in row order. -/
def fieldVals (field : String) (r : Monthly) : List Q :=
  r.filterMap (fun p =>
    match lookup? p.2 field with
    | some (Value.num q) => some q
    | _ => none)

/-- Left fold sum of rationals, as the accumulating loop computes it. -/
def sumQ (l : List Q) : Q := l.foldl Q.addQ ⟨0, 1⟩

/-- Day-indexed truncated max/min pairs of the days where both temperature
fields are non-empty, in row order: the expected value of
`compute_min_max` on well-formed readings. -/
def minmaxSpec (r : Monthly) : List (Nat × Int × Int) :=
  r.filterMap (fun p =>
    match lookup? p.2 "Max TemperatureC", lookup? p.2 "Min TemperatureC" with
    | some (Value.num a), some (Value.num b) => some (p.1, truncQ a, truncQ b)
    | _, _ => none)

/-- Ordered insertion into a day-sorted Summary list (for stating the
ascending-order claim about the bar renders). -/
def insertDay (p : Nat × Int × Int) : List (Nat × Int × Int) → List (Nat × Int × Int)
  | [] => [p]
  | q :: t => if p.1 ≤ q.1 then p :: q :: t else q :: insertDay p t

/-- Insertion sort of a min-max Summary by ascending day key. -/
def daySort : List (Nat × Int × Int) → List (Nat × Int × Int)
  | [] => []
  | p :: t => insertDay p (daySort t)

/-- Count of bar marker characters in a printed line. -/
def plusCountN (s : String) : Nat := s.data.count '+'

/-- Relation between a raw csv field and its typed Daily Reading field:
same name, and the value is kept as a string exactly for the day-key and
events fields or an empty raw value, otherwise coerced with `float`. -/
def typedField (a : String × String) (b : String × Value) : Prop :=
  b.1 = a.1 ∧
    (if a.1 ∈ str_headers ∨ a.2 = "" then b.2 = .str a.2
     else ∃ q, parseFloat a.2 = some q ∧ b.2 = .num q)

/-- Concrete Raw Row exercising all three typing cases of the reader. -/
def rawRowEx : RawRow :=
  [("PKT", "2011-7-1"), ("Max TemperatureC", "45.2"), ("Events", "Rain"),
   ("Mean Humidity", "")]

/-- Daily Reading the reader produces from `rawRowEx`. -/
def rowEx : Row :=
  [("PKT", .str "2011-7-1"), ("Max TemperatureC", .num ⟨452, 10⟩),
   ("Events", .str "Rain"), ("Mean Humidity", .str "")]

/-- Concrete month for the min-max reduction: day 1 has both temperature
fields (4.7 and -2.5), day 2 is missing its min temperature. -/
def minmaxEx : Monthly :=
  [(1, [("Max TemperatureC", .num ⟨47, 10⟩), ("Min TemperatureC", .num ⟨-25, 10⟩)]),
   (2, [("Max TemperatureC", .num ⟨30, 1⟩), ("Min TemperatureC", .str "")])]

/-- Concrete month whose three field means all land exactly on a `.5`
boundary: max temperatures 24, 25; min temperatures 2, 3; mean humidity
3, 4. -/
def avgEx : Monthly :=
  [(1, [("Max TemperatureC", .num ⟨24, 1⟩), ("Min TemperatureC", .num ⟨2, 1⟩),
        ("Mean Humidity", .num ⟨3, 1⟩)]),
   (2, [("Max TemperatureC", .num ⟨25, 1⟩), ("Min TemperatureC", .num ⟨3, 1⟩),
        ("Mean Humidity", .num ⟨4, 1⟩)])]

/-- Field present but empty in every Daily Reading of a Yearly Readings. -/
def allEmptyY (field : String) (r : Yearly) : Bool :=
  r.all (fun p => p.2.all (fun q => lookup? q.2 field == some (.str "")))

/-- Field present but empty in every Daily Reading of a Monthly Readings. -/
def allEmptyM (field : String) (r : Monthly) : Bool :=
  r.all (fun q => lookup? q.2 field == some (.str ""))

/-- Concrete Monthly Readings where `'Max Humidity'` is present but empty
in every row while the three fields the monthly-average reduction actually
reads are populated. -/
def maxHumEmptyEx : Monthly :=
  [(1, [("Max TemperatureC", .num ⟨20, 1⟩), ("Min TemperatureC", .num ⟨5, 1⟩),
        ("Mean Humidity", .num ⟨40, 1⟩), ("Max Humidity", .str "")])]

/-- Concrete Yearly Readings whose `'Max Humidity'` field is empty on every
day while the temperatures are populated. -/
def yEmptyEx : Yearly :=
  [("July", [(1, [("Max TemperatureC", .num ⟨30, 1⟩), ("Min TemperatureC", .num ⟨2, 1⟩),
                  ("Max Humidity", .str "")])])]

/-- Concrete Monthly Readings whose `'Mean Humidity'` field is empty on
every day. -/
def mEmptyEx : Monthly :=
  [(1, [("Max TemperatureC", .num ⟨30, 1⟩), ("Min TemperatureC", .num ⟨2, 1⟩),
        ("Mean Humidity", .str "")])]

/-- Concrete Yearly Readings where days 1 and 2 of July tie at max
temperature 45 (and days 2 and 3 tie at min temperature 1, days 1 and 3 at
max humidity 70). -/
def tieEx : Yearly :=
  [("July",
    [(1, [("Max TemperatureC", .num ⟨45, 1⟩), ("Min TemperatureC", .num ⟨3, 1⟩),
          ("Max Humidity", .num ⟨70, 1⟩)]),
     (2, [("Max TemperatureC", .num ⟨45, 1⟩), ("Min TemperatureC", .num ⟨1, 1⟩),
          ("Max Humidity", .num ⟨60, 1⟩)]),
     (3, [("Max TemperatureC", .num ⟨40, 1⟩), ("Min TemperatureC", .num ⟨1, 1⟩),
          ("Max Humidity", .num ⟨70, 1⟩)])])]

/-- Concrete Yearly Readings where day 2's raw max temperature 45.9 is
strictly the largest float but truncates to the same integer 45 as day 1's
45.2. -/
def truncEx : Yearly :=
  [("July",
    [(1, [("Max TemperatureC", .num ⟨452, 10⟩), ("Min TemperatureC", .num ⟨10, 1⟩),
          ("Max Humidity", .num ⟨50, 1⟩)]),
     (2, [("Max TemperatureC", .num ⟨459, 10⟩), ("Min TemperatureC", .num ⟨20, 1⟩),
          ("Max Humidity", .num ⟨40, 1⟩)])])]

/-- Filesystem with a July and a September 2011 file, each holding one
parsed data row, and nothing for August. -/
def fs2Ex : FS where
  listing := ["2011_Jul.txt", "2011_Sep.txt"]
  content f :=
    if f = "2011_Jul.txt" then
      [[("PKT", "2011-7-1"), ("Max TemperatureC", "10"), ("Min TemperatureC", "2")]]
    else if f = "2011_Sep.txt" then
      [[("PKT", "2011-9-1"), ("Max TemperatureC", "20"), ("Min TemperatureC", "5")]]
    else []

/-- Filesystem where the August 2011 file exists but has a header only (no
data rows). -/
def fs10Ex : FS where
  listing := ["2011_Jul.txt", "2011_Aug.txt"]
  content f :=
    if f = "2011_Jul.txt" then
      [[("PKT", "2011-7-1"), ("Max TemperatureC", "10"), ("Min TemperatureC", "2")]]
    else []

theorem forall2_typed_of_ok (raw : RawRow) (out : Row)
    (h : get_daily_readings raw = .ok out) : List.Forall₂ typedField raw out := by
  induction raw generalizing out with
  | nil =>
    simp only [get_daily_readings] at h
    cases h
    exact List.Forall₂.nil
  | cons hd t ih =>
    obtain ⟨hh, v⟩ := hd
    simp only [get_daily_readings] at h
    by_cases hc : hh ∉ str_headers ∧ v ≠ ""
    · rw [if_pos hc] at h
      cases hpf : parseFloat v with
      | none => rw [hpf] at h; cases h
      | some q =>
        rw [hpf] at h
        cases hrec : get_daily_readings t with
        | error e => rw [hrec] at h; cases h
        | ok r =>
          rw [hrec] at h
          simp only [Except.map] at h
          cases h
          refine List.Forall₂.cons ⟨rfl, ?_⟩ (ih r hrec)
          rw [if_neg]
          · exact ⟨q, hpf, rfl⟩
          · intro hor
            rcases hor with hmem | hemp
            · exact hc.1 hmem
            · exact hc.2 hemp
    · rw [if_neg hc] at h
      cases hrec : get_daily_readings t with
      | error e => rw [hrec] at h; cases h
      | ok r =>
        rw [hrec] at h
        simp only [Except.map] at h
        cases h
        refine List.Forall₂.cons ⟨rfl, ?_⟩ (ih r hrec)
        have hcond : hh ∈ str_headers ∨ v = "" := by
          push_neg at hc
          by_cases hmem : hh ∈ str_headers
          · exact Or.inl hmem
          · exact Or.inr (hc hmem)
        rw [if_pos hcond]

/-- C5: for every Raw Row the reader turns into a Daily Reading, each field
keeps its name, is kept as a string exactly when its name is `'PKT'` or
`'Events'` or its raw value is empty, and is otherwise coerced to the float
`parseFloat` yields — never left as non-empty unparsed text. -/
theorem c5_reader_field_typing (raw : RawRow) (out : Row)
    (h : get_daily_readings raw = .ok out) : List.Forall₂ typedField raw out :=
  forall2_typed_of_ok raw out h

/-- Witness for C5: the typing relation holds on a concrete row with a
date field, a numeric field, an events field and an empty field. -/
theorem c5_reader_field_typing_witness :
    get_daily_readings rawRowEx = .ok rowEx ∧ List.Forall₂ typedField rawRowEx rowEx := by
  have h : get_daily_readings rawRowEx = .ok rowEx := by decide
  exact ⟨h, c5_reader_field_typing rawRowEx rowEx h⟩

theorem dictInsert_append {α β : Type} [DecidableEq α] (l : List (α × β)) (k : α) (v : β)
    (h : k ∉ l.map Prod.fst) : dictInsert l k v = l ++ [(k, v)] := by
  induction l with
  | nil => rfl
  | cons hd t ih =>
    obtain ⟨k', v'⟩ := hd
    simp only [List.map_cons, List.mem_cons] at h
    push_neg at h
    simp only [dictInsert]
    rw [if_neg (fun he => h.1 he.symm), ih h.2]
    simp [List.cons_append]

theorem compute_min_max_go_spec (r : Monthly) : ∀ acc : List (Nat × Int × Int),
    WFminmax r = true →
    ((acc.map Prod.fst) ++ (r.map Prod.fst)).Nodup →
    compute_min_max_go acc r = .ok (acc ++ minmaxSpec r) := by
  induction r with
  | nil => intro acc _ _; simp [compute_min_max_go, minmaxSpec]
  | cons hd t ih =>
    intro acc hwf hnd
    obtain ⟨day, row⟩ := hd
    simp only [WFminmax, List.all_cons, Bool.and_eq_true] at hwf
    obtain ⟨⟨hokmx, hokmn⟩, hwft⟩ := hwf
    have hfresh : day ∉ acc.map Prod.fst := by
      rw [List.nodup_append] at hnd
      intro hmem
      exact hnd.2.2 hmem (by simp)
    simp only [okField] at hokmx hokmn
    cases hmx : lookup? row "Max TemperatureC" with
    | none => rw [hmx] at hokmx; cases hokmx
    | some vmx =>
      cases hmn : lookup? row "Min TemperatureC" with
      | none => rw [hmn] at hokmn; cases hokmn
      | some vmn =>
        rw [hmx] at hokmx
        rw [hmn] at hokmn
        simp only [compute_min_max_go, hmx, hmn, minmaxSpec, List.filterMap_cons]
        cases vmx with
        | str smx =>
          have hsmx : smx = "" := by
            cases vmn <;> simpa using hokmx
          subst hsmx
          rw [if_neg (fun hcontra => hcontra.1 rfl)]
          have hnd' : ((acc.map Prod.fst) ++ (t.map Prod.fst)).Nodup := by
            refine List.Nodup.sublist ?_ hnd
            exact List.Sublist.append_left (List.sublist_cons_self _ _) _
          simpa [minmaxSpec] using ih acc hwft hnd'
        | num qmx =>
          cases vmn with
          | str smn =>
            have hsmn : smn = "" := by simpa using hokmn
            subst hsmn
            rw [if_neg (fun hcontra => hcontra.2 rfl)]
            have hnd' : ((acc.map Prod.fst) ++ (t.map Prod.fst)).Nodup := by
              refine List.Nodup.sublist ?_ hnd
              exact List.Sublist.append_left (List.sublist_cons_self _ _) _
            simpa [minmaxSpec] using ih acc hwft hnd'
          | num qmn =>
            rw [if_pos ⟨fun hcontra => Value.noConfusion hcontra,
                        fun hcontra => Value.noConfusion hcontra⟩]
            simp only [pyInt]
            rw [dictInsert_append acc day _ hfresh]
            have hnd' : (((acc ++ [(day, truncQ qmx, truncQ qmn)]).map Prod.fst)
                ++ (t.map Prod.fst)).Nodup := by
              simpa [List.append_assoc] using hnd
            have := ih (acc ++ [(day, truncQ qmx, truncQ qmn)]) hwft hnd'
            rw [this]
            simp [minmaxSpec, List.append_assoc]
/-- C8: on well-formed Monthly Readings with distinct day keys, the
daily-min-max reduction returns exactly the days whose two temperature
fields are both non-empty, each mapped to the toward-zero truncations of
its float values, and days with an empty field are absent (no error). -/
theorem c8_daily_min_max (r : Monthly) (hwf : WFminmax r = true)
    (hnd : (r.map Prod.fst).Nodup) :
    compute_min_max r = .ok (minmaxSpec r) := by
  have := compute_min_max_go_spec r [] hwf (by simpa using hnd)
  simpa [compute_min_max] using this

/-- Witness for C8: day 1 keeps the truncated pair (4, -2) — toward zero,
not rounded — and day 2, whose min temperature is empty, is absent. -/
theorem c8_daily_min_max_witness :
    WFminmax minmaxEx = true ∧ compute_min_max minmaxEx = .ok (minmaxSpec minmaxEx) ∧
      minmaxSpec minmaxEx = [(1, 4, -2)] :=
  ⟨by decide, c8_daily_min_max minmaxEx (by decide) (by decide), by decide⟩

theorem avgGo_spec (r : Monthly) : ∀ acc : AvgAcc, WFavg r = true →
    avgGo acc r = .ok ⟨(fieldVals "Max TemperatureC" r).foldl Q.addQ acc.totMax,
      acc.cntMax + (fieldVals "Max TemperatureC" r).length,
      (fieldVals "Min TemperatureC" r).foldl Q.addQ acc.totMin,
      acc.cntMin + (fieldVals "Min TemperatureC" r).length,
      (fieldVals "Mean Humidity" r).foldl Q.addQ acc.totHum,
      acc.cntHum + (fieldVals "Mean Humidity" r).length⟩ := by
  induction r with
  | nil => intro acc _; simp [avgGo, fieldVals]
  | cons hd t ih =>
    intro acc hwf
    obtain ⟨day, row⟩ := hd
    obtain ⟨t1, c1, t2, c2, t3, c3⟩ := acc
    simp only [WFavg, List.all_cons, Bool.and_eq_true] at hwf
    obtain ⟨⟨⟨hok1, hok2⟩, hok3⟩, hwft⟩ := hwf
    simp only [okField] at hok1 hok2 hok3
    cases h1 : lookup? row "Max TemperatureC" with
    | none => rw [h1] at hok1; cases hok1
    | some v1 =>
      rw [h1] at hok1
      cases h2 : lookup? row "Min TemperatureC" with
      | none => rw [h2] at hok2; cases hok2
      | some v2 =>
        rw [h2] at hok2
        cases h3 : lookup? row "Mean Humidity" with
        | none => rw [h3] at hok3; cases hok3
        | some v3 =>
          rw [h3] at hok3
          simp only [avgGo, avgStep, fieldVals, List.filterMap_cons, h1, h2, h3]
          cases v1 with
          | str s1 =>
            have : s1 = "" := by simpa using hok1
            subst this
            cases v2 with
            | str s2 =>
              have : s2 = "" := by simpa using hok2
              subst this
              cases v3 with
              | str s3 =>
                have : s3 = "" := by simpa using hok3
                subst this
                simpa [fieldVals] using ih ⟨t1, c1, t2, c2, t3, c3⟩ hwft
              | num q3 =>
                simpa [fieldVals, Nat.add_assoc, Nat.add_comm, Nat.add_left_comm]
                  using ih ⟨t1, c1, t2, c2, t3.addQ q3, c3 + 1⟩ hwft
            | num q2 =>
              cases v3 with
              | str s3 =>
                have : s3 = "" := by simpa using hok3
                subst this
                simpa [fieldVals, Nat.add_assoc, Nat.add_comm, Nat.add_left_comm]
                  using ih ⟨t1, c1, t2.addQ q2, c2 + 1, t3, c3⟩ hwft
              | num q3 =>
                simpa [fieldVals, Nat.add_assoc, Nat.add_comm, Nat.add_left_comm]
                  using ih ⟨t1, c1, t2.addQ q2, c2 + 1, t3.addQ q3, c3 + 1⟩ hwft
          | num q1 =>
            cases v2 with
            | str s2 =>
              have : s2 = "" := by simpa using hok2
              subst this
              cases v3 with
              | str s3 =>
                have : s3 = "" := by simpa using hok3
                subst this
                simpa [fieldVals, Nat.add_assoc, Nat.add_comm, Nat.add_left_comm]
                  using ih ⟨t1.addQ q1, c1 + 1, t2, c2, t3, c3⟩ hwft
              | num q3 =>
                simpa [fieldVals, Nat.add_assoc, Nat.add_comm, Nat.add_left_comm]
                  using ih ⟨t1.addQ q1, c1 + 1, t2, c2, t3.addQ q3, c3 + 1⟩ hwft
            | num q2 =>
              cases v3 with
              | str s3 =>
                have : s3 = "" := by simpa using hok3
                subst this
                simpa [fieldVals, Nat.add_assoc, Nat.add_comm, Nat.add_left_comm]
                  using ih ⟨t1.addQ q1, c1 + 1, t2.addQ q2, c2 + 1, t3, c3⟩ hwft
              | num q3 =>
                simpa [fieldVals, Nat.add_assoc, Nat.add_comm, Nat.add_left_comm]
                  using ih ⟨t1.addQ q1, c1 + 1, t2.addQ q2, c2 + 1, t3.addQ q3, c3 + 1⟩ hwft
/-- C6: on well-formed Monthly Readings where each of the three fields has
at least one non-empty value, the monthly-average reduction returns each
field's mean (sum of the non-empty values over their count) rounded with
`pyRound`; and `pyRound` rounds exact-half values to the nearest even
integer: `2k + 1/2` rounds down to `2k` and `(2k+1) + 1/2` rounds up to
`2k + 2`. -/
theorem c6_monthly_average_banker (r : Monthly) (hwf : WFavg r = true)
    (h1 : fieldVals "Max TemperatureC" r ≠ [])
    (h2 : fieldVals "Min TemperatureC" r ≠ [])
    (h3 : fieldVals "Mean Humidity" r ≠ []) :
    compute_monthly_average r =
      .ok ⟨pyRound ((sumQ (fieldVals "Max TemperatureC" r)).divNat
              (fieldVals "Max TemperatureC" r).length),
           pyRound ((sumQ (fieldVals "Min TemperatureC" r)).divNat
              (fieldVals "Min TemperatureC" r).length),
           pyRound ((sumQ (fieldVals "Mean Humidity" r)).divNat
              (fieldVals "Mean Humidity" r).length)⟩ ∧
    (∀ k : Int, pyRound ⟨4 * k + 1, 2⟩ = 2 * k ∧ pyRound ⟨4 * k + 3, 2⟩ = 2 * k + 2) := by
  constructor
  · have hlen1 : (fieldVals "Max TemperatureC" r).length ≠ 0 :=
      fun hc => h1 (List.length_eq_zero.mp hc)
    have hlen2 : (fieldVals "Min TemperatureC" r).length ≠ 0 :=
      fun hc => h2 (List.length_eq_zero.mp hc)
    have hlen3 : (fieldVals "Mean Humidity" r).length ≠ 0 :=
      fun hc => h3 (List.length_eq_zero.mp hc)
    have hgo := avgGo_spec r ⟨⟨0, 1⟩, 0, ⟨0, 1⟩, 0, ⟨0, 1⟩, 0⟩ hwf
    simp only [compute_monthly_average, hgo]
    rw [if_neg (by simpa using hlen1), if_neg (by simpa using hlen2),
        if_neg (by simpa using hlen3)]
    simp [sumQ]
  · intro k
    constructor
    · simp only [pyRound, floorQ]
      push_cast
      split
      · omega
      · split
        · omega
        · split <;> omega
    · simp only [pyRound, floorQ]
      push_cast
      split
      · omega
      · split
        · omega
        · split <;> omega

/-- Witness for C6: means 24.5, 2.5 and 3.5 round to 24, 2 and 4
respectively — each to the nearest even integer. -/
theorem c6_monthly_average_banker_witness :
    WFavg avgEx = true ∧
      (compute_monthly_average avgEx =
        .ok ⟨pyRound ((sumQ (fieldVals "Max TemperatureC" avgEx)).divNat
                (fieldVals "Max TemperatureC" avgEx).length),
             pyRound ((sumQ (fieldVals "Min TemperatureC" avgEx)).divNat
                (fieldVals "Min TemperatureC" avgEx).length),
             pyRound ((sumQ (fieldVals "Mean Humidity" avgEx)).divNat
                (fieldVals "Mean Humidity" avgEx).length)⟩ ∧
        (∀ k : Int, pyRound ⟨4 * k + 1, 2⟩ = 2 * k ∧ pyRound ⟨4 * k + 3, 2⟩ = 2 * k + 2)) ∧
      compute_monthly_average avgEx = .ok ⟨24, 2, 4⟩ :=
  ⟨by decide,
   c6_monthly_average_banker avgEx (by decide) (by decide) (by decide) (by decide),
   by decide⟩
theorem entryStep_total (field : String) (es : List (String × Int)) (label : String)
    (row : Row) (hok : okField row field = true) :
    ∃ es2, entryStep field es label row = .ok es2 ∧
      (lookup? row field = some (.str "") → es2 = es) := by
  simp only [okField] at hok
  cases hl : lookup? row field with
  | none => rw [hl] at hok; cases hok
  | some v =>
    rw [hl] at hok
    cases v with
    | num q =>
      refine ⟨dictInsert es label (truncQ q), ?_, ?_⟩
      · simp [entryStep, hl, pyInt, Except.map]
      · intro hc; simp at hc
    | str s =>
      have : s = "" := by simpa using hok
      subst this
      exact ⟨es, by simp [entryStep, hl], fun _ => rfl⟩

theorem computeMonth_total (month : String) (days : List (Nat × Row)) :
    ∀ st : Entries3,
    days.all (fun q => okField q.2 "Max TemperatureC" && okField q.2 "Min TemperatureC" &&
      okField q.2 "Max Humidity") = true →
    ∃ e : Entries3, computeMonth st month days = .ok e ∧
      (days.all (fun q => lookup? q.2 "Max TemperatureC" == some (.str "")) = true →
        e.1 = st.1) ∧
      (days.all (fun q => lookup? q.2 "Min TemperatureC" == some (.str "")) = true →
        e.2.1 = st.2.1) ∧
      (days.all (fun q => lookup? q.2 "Max Humidity" == some (.str "")) = true →
        e.2.2 = st.2.2) := by
  induction days with
  | nil => intro st _; exact ⟨st, rfl, fun _ => rfl, fun _ => rfl, fun _ => rfl⟩
  | cons hd t ih =>
    intro st hwf
    obtain ⟨day, row⟩ := hd
    simp only [List.all_cons, Bool.and_eq_true] at hwf
    obtain ⟨⟨⟨hok1, hok2⟩, hok3⟩, hwft⟩ := hwf
    obtain ⟨es1, he1, hemp1⟩ := entryStep_total "Max TemperatureC" st.1 (day_label day month) row hok1
    obtain ⟨es2, he2, hemp2⟩ := entryStep_total "Min TemperatureC" st.2.1 (day_label day month) row hok2
    obtain ⟨es3, he3, hemp3⟩ := entryStep_total "Max Humidity" st.2.2 (day_label day month) row hok3
    obtain ⟨e, hecomp, hi1, hi2, hi3⟩ := ih (es1, es2, es3) (by simpa using hwft)
    refine ⟨e, ?_, ?_, ?_, ?_⟩
    · simp only [computeMonth, computeRow, he1, he2, he3]
      exact hecomp
    · intro hall
      simp only [List.all_cons, Bool.and_eq_true, beq_iff_eq] at hall
      rw [hi1 (by simpa using hall.2)]
      exact hemp1 hall.1
    · intro hall
      simp only [List.all_cons, Bool.and_eq_true, beq_iff_eq] at hall
      rw [hi2 (by simpa using hall.2)]
      exact hemp2 hall.1
    · intro hall
      simp only [List.all_cons, Bool.and_eq_true, beq_iff_eq] at hall
      rw [hi3 (by simpa using hall.2)]
      exact hemp3 hall.1

theorem computeEntriesGo_total (r : Yearly) : ∀ st : Entries3, WFyearly r = true →
    ∃ e : Entries3, computeEntriesGo st r = .ok e ∧
      (allEmptyY "Max TemperatureC" r = true → e.1 = st.1) ∧
      (allEmptyY "Min TemperatureC" r = true → e.2.1 = st.2.1) ∧
      (allEmptyY "Max Humidity" r = true → e.2.2 = st.2.2) := by
  induction r with
  | nil => intro st _; exact ⟨st, rfl, fun _ => rfl, fun _ => rfl, fun _ => rfl⟩
  | cons hd t ih =>
    intro st hwf
    obtain ⟨month, days⟩ := hd
    simp only [WFyearly, List.all_cons, Bool.and_eq_true] at hwf
    obtain ⟨hwfh, hwft⟩ := hwf
    obtain ⟨e1, he1, hm1, hm2, hm3⟩ := computeMonth_total month days st hwfh
    obtain ⟨e, he, hi1, hi2, hi3⟩ := ih e1 (by simpa [WFyearly] using hwft)
    refine ⟨e, ?_, ?_, ?_, ?_⟩
    · simp only [computeEntriesGo, he1]
      exact he
    · intro hall
      simp only [allEmptyY, List.all_cons, Bool.and_eq_true] at hall
      rw [hi1 (by simpa [allEmptyY] using hall.2)]
      exact hm1 hall.1
    · intro hall
      simp only [allEmptyY, List.all_cons, Bool.and_eq_true] at hall
      rw [hi2 (by simpa [allEmptyY] using hall.2)]
      exact hm2 hall.1
    · intro hall
      simp only [allEmptyY, List.all_cons, Bool.and_eq_true] at hall
      rw [hi3 (by simpa [allEmptyY] using hall.2)]
      exact hm3 hall.1

theorem allEmptyM_fieldVals_nil (field : String) (r : Monthly)
    (h : allEmptyM field r = true) : fieldVals field r = [] := by
  induction r with
  | nil => rfl
  | cons hd t ih =>
    simp only [allEmptyM, List.all_cons, Bool.and_eq_true, beq_iff_eq] at h
    simp only [fieldVals, List.filterMap_cons, h.1]
    exact ih (by simpa [allEmptyM] using h.2)
/-- Counterexample to C7 as stated: `'Max Humidity'` has no non-empty value
anywhere in the range, yet the monthly-average reduction does not fail — it
returns a Summary, because it never consults that field. -/
theorem c7_empty_range_counterexample :
    allEmptyM "Max Humidity" maxHumEmptyEx = true ∧
      compute_monthly_average maxHumEmptyEx = .ok ⟨20, 5, 40⟩ := by decide

/-- C7 (amended): a field that is present but empty across the whole range
makes the reduction fail with `EmptyRangeError` — for the yearly-extremes
reduction the required fields are `'Max TemperatureC'`, `'Min TemperatureC'`
and `'Max Humidity'`; for the monthly-average reduction they are
`'Max TemperatureC'`, `'Min TemperatureC'` and `'Mean Humidity'` (not
`'Max Humidity'`, which that reduction never reads). -/
theorem c7_empty_range_amended :
    (∀ r : Yearly, WFyearly r = true →
      (allEmptyY "Max TemperatureC" r || allEmptyY "Min TemperatureC" r ||
        allEmptyY "Max Humidity" r) = true →
      compute r = .error .emptyRange) ∧
    (∀ r : Monthly, WFavg r = true →
      (allEmptyM "Max TemperatureC" r || allEmptyM "Min TemperatureC" r ||
        allEmptyM "Mean Humidity" r) = true →
      compute_monthly_average r = .error .emptyRange) := by
  constructor
  · intro r hwf hemp
    obtain ⟨e, he, hi1, hi2, hi3⟩ := computeEntriesGo_total r ([], [], []) hwf
    obtain ⟨e1, e2, e3⟩ := e
    simp only [compute, computeEntries, he]
    simp only [Bool.or_eq_true] at hemp
    rcases hemp with (hf | hf) | hf
    · rw [show e1 = [] from hi1 hf]
      rfl
    · cases hmx : pyMaxList e1 with
      | none => rfl
      | some maxE =>
        rw [show e2 = [] from hi2 hf]
        rfl
    · cases hmx : pyMaxList e1 with
      | none => rfl
      | some maxE =>
        cases hmn : pyMinList e2 with
        | none => rfl
        | some minE =>
          rw [show e3 = [] from hi3 hf]
          rfl
  · intro r hwf hemp
    have hgo := avgGo_spec r ⟨⟨0, 1⟩, 0, ⟨0, 1⟩, 0, ⟨0, 1⟩, 0⟩ hwf
    simp only [compute_monthly_average, hgo]
    simp only [Bool.or_eq_true] at hemp
    rcases hemp with (hf | hf) | hf
    · rw [if_pos (by simp [allEmptyM_fieldVals_nil _ _ hf])]
    · by_cases hc1 : (0 : Nat) + (fieldVals "Max TemperatureC" r).length = 0
      · rw [if_pos hc1]
      · rw [if_neg hc1, if_pos (by simp [allEmptyM_fieldVals_nil _ _ hf])]
    · by_cases hc1 : (0 : Nat) + (fieldVals "Max TemperatureC" r).length = 0
      · rw [if_pos hc1]
      · rw [if_neg hc1]
        by_cases hc2 : (0 : Nat) + (fieldVals "Min TemperatureC" r).length = 0
        · rw [if_pos hc2]
        · rw [if_neg hc2, if_pos (by simp [allEmptyM_fieldVals_nil _ _ hf])]
/-- Witness for the amended C7: both reductions fail with `emptyRange` on
ranges where one of their required fields is entirely empty. -/
theorem c7_empty_range_amended_witness :
    (WFyearly yEmptyEx = true ∧ compute yEmptyEx = .error .emptyRange) ∧
      (WFavg mEmptyEx = true ∧ compute_monthly_average mEmptyEx = .error .emptyRange) :=
  ⟨⟨by decide, c7_empty_range_amended.1 yEmptyEx (by decide) (by decide)⟩,
   ⟨by decide, c7_empty_range_amended.2 mEmptyEx (by decide) (by decide)⟩⟩

theorem pyMaxGo_spec (t : List (String × Int)) : ∀ best : String × Int,
    ∃ u v, best :: t = u ++ (pyMaxGo best t) :: v ∧
      (∀ a ∈ u, a.2 < (pyMaxGo best t).2) ∧
      ∀ a ∈ best :: t, a.2 ≤ (pyMaxGo best t).2 := by
  induction t with
  | nil =>
    intro best
    exact ⟨[], [], rfl, by simp, by simp [pyMaxGo]⟩
  | cons a t' ih =>
    intro best
    by_cases hba : best.2 < a.2
    · have hgo : pyMaxGo best (a :: t') = pyMaxGo a t' := by
        simp [pyMaxGo, if_pos hba]
      obtain ⟨u, v, he, hu, hall⟩ := ih a
      rw [hgo]
      have hap : a.2 ≤ (pyMaxGo a t').2 := hall a (List.mem_cons_self a t')
      refine ⟨best :: u, v, ?_, ?_, ?_⟩
      · rw [List.cons_append, ← he]
      · rw [List.forall_mem_cons]
        exact ⟨lt_of_lt_of_le hba hap, hu⟩
      · rw [List.forall_mem_cons]
        exact ⟨le_of_lt (lt_of_lt_of_le hba hap), hall⟩
    · have hgo : pyMaxGo best (a :: t') = pyMaxGo best t' := by
        simp [pyMaxGo, if_neg hba]
      obtain ⟨u, v, he, hu, hall⟩ := ih best
      rw [hgo]
      cases u with
      | nil =>
        rw [List.nil_append] at he
        injection he with h1 h2
        refine ⟨[], a :: t', ?_, by simp, ?_⟩
        · rw [List.nil_append, ← h1]
        · rw [List.forall_mem_cons, List.forall_mem_cons]
          refine ⟨hall best (List.mem_cons_self best t'), ?_, ?_⟩
          · rw [← h1]
            exact le_of_not_lt hba
          · exact fun x hx => hall x (List.mem_cons_of_mem best hx)
      | cons b u' =>
        rw [List.cons_append] at he
        injection he with h1 h2
        refine ⟨best :: a :: u', v, ?_, ?_, ?_⟩
        · rw [List.cons_append, List.cons_append, ← h2]
        · rw [List.forall_mem_cons, List.forall_mem_cons]
          have hb2 : best.2 = b.2 := by rw [h1]
          have hbp : best.2 < (pyMaxGo best t').2 := by
            rw [hb2]
            exact hu b (List.mem_cons_self b u')
          exact ⟨hbp, lt_of_le_of_lt (le_of_not_lt hba) hbp,
                 fun x hx => hu x (List.mem_cons_of_mem b hx)⟩
        · rw [List.forall_mem_cons, List.forall_mem_cons]
          have hbp : best.2 ≤ (pyMaxGo best t').2 := hall best (List.mem_cons_self best t')
          exact ⟨hbp, le_trans (le_of_not_lt hba) hbp,
                 fun x hx => hall x (List.mem_cons_of_mem best hx)⟩

theorem pyMinGo_spec (t : List (String × Int)) : ∀ best : String × Int,
    ∃ u v, best :: t = u ++ (pyMinGo best t) :: v ∧
      (∀ a ∈ u, (pyMinGo best t).2 < a.2) ∧
      ∀ a ∈ best :: t, (pyMinGo best t).2 ≤ a.2 := by
  induction t with
  | nil =>
    intro best
    exact ⟨[], [], rfl, by simp, by simp [pyMinGo]⟩
  | cons a t' ih =>
    intro best
    by_cases hba : a.2 < best.2
    · have hgo : pyMinGo best (a :: t') = pyMinGo a t' := by
        simp [pyMinGo, if_pos hba]
      obtain ⟨u, v, he, hu, hall⟩ := ih a
      rw [hgo]
      have hap : (pyMinGo a t').2 ≤ a.2 := hall a (List.mem_cons_self a t')
      refine ⟨best :: u, v, ?_, ?_, ?_⟩
      · rw [List.cons_append, ← he]
      · rw [List.forall_mem_cons]
        exact ⟨lt_of_le_of_lt hap hba, hu⟩
      · rw [List.forall_mem_cons]
        exact ⟨le_of_lt (lt_of_le_of_lt hap hba), hall⟩
    · have hgo : pyMinGo best (a :: t') = pyMinGo best t' := by
        simp [pyMinGo, if_neg hba]
      obtain ⟨u, v, he, hu, hall⟩ := ih best
      rw [hgo]
      cases u with
      | nil =>
        rw [List.nil_append] at he
        injection he with h1 h2
        refine ⟨[], a :: t', ?_, by simp, ?_⟩
        · rw [List.nil_append, ← h1]
        · rw [List.forall_mem_cons, List.forall_mem_cons]
          refine ⟨hall best (List.mem_cons_self best t'), ?_, ?_⟩
          · rw [← h1]
            exact le_of_not_lt hba
          · exact fun x hx => hall x (List.mem_cons_of_mem best hx)
      | cons b u' =>
        rw [List.cons_append] at he
        injection he with h1 h2
        refine ⟨best :: a :: u', v, ?_, ?_, ?_⟩
        · rw [List.cons_append, List.cons_append, ← h2]
        · rw [List.forall_mem_cons, List.forall_mem_cons]
          have hb2 : best.2 = b.2 := by rw [h1]
          have hbp : (pyMinGo best t').2 < best.2 := by
            rw [hb2]
            exact hu b (List.mem_cons_self b u')
          exact ⟨hbp, lt_of_lt_of_le hbp (le_of_not_lt hba),
                 fun x hx => hu x (List.mem_cons_of_mem b hx)⟩
        · rw [List.forall_mem_cons, List.forall_mem_cons]
          have hbp : (pyMinGo best t').2 ≤ best.2 := hall best (List.mem_cons_self best t')
          exact ⟨hbp, le_trans hbp (le_of_not_lt hba),
                 fun x hx => hall x (List.mem_cons_of_mem best hx)⟩

theorem pyMaxList_firstMax (l : List (String × Int)) (p : String × Int)
    (h : pyMaxList l = some p) : FirstMax l p := by
  cases l with
  | nil => cases h
  | cons x xs =>
    simp only [pyMaxList, Option.some.injEq] at h
    obtain ⟨u, v, he, hu, hall⟩ := pyMaxGo_spec xs x
    rw [h] at he hu hall
    exact ⟨u, v, he, hu, fun a ha => hall a (he ▸ ha)⟩

theorem pyMinList_firstMin (l : List (String × Int)) (p : String × Int)
    (h : pyMinList l = some p) : FirstMin l p := by
  cases l with
  | nil => cases h
  | cons x xs =>
    simp only [pyMinList, Option.some.injEq] at h
    obtain ⟨u, v, he, hu, hall⟩ := pyMinGo_spec xs x
    rw [h] at he hu hall
    exact ⟨u, v, he, hu, fun a ha => hall a (he ▸ ha)⟩

theorem entryStep_num (field : String) (es : List (String × Int)) (label : String)
    (row : Row) (q : Q) (h : lookup? row field = some (.num q))
    (hfresh : label ∉ es.map Prod.fst) :
    entryStep field es label row = .ok (es ++ [(label, truncQ q)]) := by
  simp [entryStep, h, pyInt, Except.map, dictInsert_append es label _ hfresh]

theorem entryStep_empty (field : String) (es : List (String × Int)) (label : String)
    (row : Row) (h : lookup? row field = some (.str "")) :
    entryStep field es label row = .ok es := by
  simp [entryStep, h]

theorem fieldEntry_keys_sublist (field month : String) (days : List (Nat × Row)) :
    ((days.filterMap (fieldEntry field month)).map Prod.fst).Sublist
      (days.map (fun q => day_label q.1 month)) := by
  induction days with
  | nil => exact List.Sublist.refl []
  | cons hd t ih =>
    simp only [List.filterMap_cons, List.map_cons]
    cases hfe : fieldEntry field month hd with
    | none => exact ih.cons _
    | some p =>
      have hp1 : p.1 = day_label hd.1 month := by
        simp only [fieldEntry] at hfe
        cases hl : lookup? hd.2 field with
        | none => rw [hl] at hfe; cases hfe
        | some v =>
          rw [hl] at hfe
          cases v with
          | str s => cases hfe
          | num q =>
            injection hfe with hfe
            rw [← hfe]
      simp only [List.map_cons, hp1]
      exact ih.cons₂ _

theorem computeMonth_spec (month : String) (days : List (Nat × Row)) :
    ∀ st : Entries3,
    days.all (fun q => okField q.2 "Max TemperatureC" && okField q.2 "Min TemperatureC" &&
      okField q.2 "Max Humidity") = true →
    (st.1.map Prod.fst ++ days.map (fun q => day_label q.1 month)).Nodup →
    (st.2.1.map Prod.fst ++ days.map (fun q => day_label q.1 month)).Nodup →
    (st.2.2.map Prod.fst ++ days.map (fun q => day_label q.1 month)).Nodup →
    computeMonth st month days =
      .ok (st.1 ++ days.filterMap (fieldEntry "Max TemperatureC" month),
           st.2.1 ++ days.filterMap (fieldEntry "Min TemperatureC" month),
           st.2.2 ++ days.filterMap (fieldEntry "Max Humidity" month)) := by
  induction days with
  | nil => intro st _ _ _ _; simp [computeMonth]
  | cons hd t ih =>
    intro st hwf hnd1 hnd2 hnd3
    obtain ⟨day, row⟩ := hd
    simp only [List.all_cons, Bool.and_eq_true] at hwf
    obtain ⟨⟨⟨hok1, hok2⟩, hok3⟩, hwft⟩ := hwf
    simp only [okField] at hok1 hok2 hok3
    have hfresh : ∀ es : List (String × Int),
        (es.map Prod.fst ++ ((day, row) :: t).map (fun q => day_label q.1 month)).Nodup →
        day_label day month ∉ es.map Prod.fst := by
      intro es hnd hmem
      rw [List.nodup_append] at hnd
      exact hnd.2.2 hmem (by simp)
    have hsub : ∀ es : List (String × Int), ∀ x : String × Int,
        (es.map Prod.fst ++ ((day, row) :: t).map (fun q => day_label q.1 month)).Nodup →
        x.1 = day_label day month →
        (((es ++ [x]).map Prod.fst) ++ t.map (fun q => day_label q.1 month)).Nodup := by
      intro es x hnd hx
      simpa [hx, List.append_assoc] using hnd
    have hskip : ∀ es : List (String × Int),
        (es.map Prod.fst ++ ((day, row) :: t).map (fun q => day_label q.1 month)).Nodup →
        ((es.map Prod.fst) ++ t.map (fun q => day_label q.1 month)).Nodup := by
      intro es hnd
      refine List.Nodup.sublist ?_ hnd
      refine List.Sublist.append_left ?_ _
      simp only [List.map_cons]
      exact List.sublist_cons_self _ _
    simp only [computeMonth, computeRow]
    cases h1 : lookup? row "Max TemperatureC" with
    | none => rw [h1] at hok1; cases hok1
    | some v1 =>
      rw [h1] at hok1
      cases h2 : lookup? row "Min TemperatureC" with
      | none => rw [h2] at hok2; cases hok2
      | some v2 =>
        rw [h2] at hok2
        cases h3 : lookup? row "Max Humidity" with
        | none => rw [h3] at hok3; cases hok3
        | some v3 =>
          rw [h3] at hok3
          have hstep1 : ∃ es1, entryStep "Max TemperatureC" st.1 (day_label day month) row
              = .ok es1 ∧ st.1 ++ List.filterMap (fieldEntry "Max TemperatureC" month)
                ((day, row) :: t) = es1 ++ List.filterMap (fieldEntry "Max TemperatureC" month) t
              ∧ (es1.map Prod.fst ++ t.map (fun q => day_label q.1 month)).Nodup := by
            cases v1 with
            | num q =>
              refine ⟨st.1 ++ [(day_label day month, truncQ q)],
                entryStep_num _ _ _ _ _ h1 (hfresh st.1 hnd1), ?_, hsub st.1 _ hnd1 rfl⟩
              simp [List.filterMap_cons, fieldEntry, h1, List.append_assoc]
            | str s =>
              have hs : s = "" := by simpa using hok1
              subst hs
              refine ⟨st.1, entryStep_empty _ _ _ _ h1, ?_, hskip st.1 hnd1⟩
              simp [List.filterMap_cons, fieldEntry, h1]
          have hstep2 : ∃ es2, entryStep "Min TemperatureC" st.2.1 (day_label day month) row
              = .ok es2 ∧ st.2.1 ++ List.filterMap (fieldEntry "Min TemperatureC" month)
                ((day, row) :: t) = es2 ++ List.filterMap (fieldEntry "Min TemperatureC" month) t
              ∧ (es2.map Prod.fst ++ t.map (fun q => day_label q.1 month)).Nodup := by
            cases v2 with
            | num q =>
              refine ⟨st.2.1 ++ [(day_label day month, truncQ q)],
                entryStep_num _ _ _ _ _ h2 (hfresh st.2.1 hnd2), ?_, hsub st.2.1 _ hnd2 rfl⟩
              simp [List.filterMap_cons, fieldEntry, h2, List.append_assoc]
            | str s =>
              have hs : s = "" := by simpa using hok2
              subst hs
              refine ⟨st.2.1, entryStep_empty _ _ _ _ h2, ?_, hskip st.2.1 hnd2⟩
              simp [List.filterMap_cons, fieldEntry, h2]
          have hstep3 : ∃ es3, entryStep "Max Humidity" st.2.2 (day_label day month) row
              = .ok es3 ∧ st.2.2 ++ List.filterMap (fieldEntry "Max Humidity" month)
                ((day, row) :: t) = es3 ++ List.filterMap (fieldEntry "Max Humidity" month) t
              ∧ (es3.map Prod.fst ++ t.map (fun q => day_label q.1 month)).Nodup := by
            cases v3 with
            | num q =>
              refine ⟨st.2.2 ++ [(day_label day month, truncQ q)],
                entryStep_num _ _ _ _ _ h3 (hfresh st.2.2 hnd3), ?_, hsub st.2.2 _ hnd3 rfl⟩
              simp [List.filterMap_cons, fieldEntry, h3, List.append_assoc]
            | str s =>
              have hs : s = "" := by simpa using hok3
              subst hs
              refine ⟨st.2.2, entryStep_empty _ _ _ _ h3, ?_, hskip st.2.2 hnd3⟩
              simp [List.filterMap_cons, fieldEntry, h3]
          obtain ⟨es1, hes1, heq1, hn1⟩ := hstep1
          obtain ⟨es2, hes2, heq2, hn2⟩ := hstep2
          obtain ⟨es3, hes3, heq3, hn3⟩ := hstep3
          rw [hes1, hes2, hes3]
          rw [heq1, heq2, heq3]
          exact ih (es1, es2, es3) hwft hn1 hn2 hn3

theorem computeEntriesGo_spec (r : Yearly) : ∀ st : Entries3, WFyearly r = true →
    (st.1.map Prod.fst ++ labelsOf r).Nodup →
    (st.2.1.map Prod.fst ++ labelsOf r).Nodup →
    (st.2.2.map Prod.fst ++ labelsOf r).Nodup →
    computeEntriesGo st r =
      .ok (st.1 ++ specEntries "Max TemperatureC" r,
           st.2.1 ++ specEntries "Min TemperatureC" r,
           st.2.2 ++ specEntries "Max Humidity" r) := by
  induction r with
  | nil => intro st _ _ _ _; simp [computeEntriesGo, specEntries]
  | cons hd t ih =>
    intro st hwf hnd1 hnd2 hnd3
    obtain ⟨month, days⟩ := hd
    simp only [WFyearly, List.all_cons, Bool.and_eq_true] at hwf
    obtain ⟨hwfh, hwft⟩ := hwf
    have hlab : labelsOf ((month, days) :: t)
        = days.map (fun q => day_label q.1 month) ++ labelsOf t := by
      simp [labelsOf]
    have hmonth : ∀ es : List (String × Int),
        (es.map Prod.fst ++ labelsOf ((month, days) :: t)).Nodup →
        (es.map Prod.fst ++ days.map (fun q => day_label q.1 month)).Nodup := by
      intro es hnd
      rw [hlab, ← List.append_assoc] at hnd
      exact List.Nodup.sublist (List.sublist_append_left _ _) hnd
    have hnext : ∀ es : List (String × Int), ∀ field : String,
        (es.map Prod.fst ++ labelsOf ((month, days) :: t)).Nodup →
        (((es ++ days.filterMap (fieldEntry field month)).map Prod.fst) ++ labelsOf t).Nodup := by
      intro es field hnd
      rw [hlab] at hnd
      rw [List.map_append]
      refine List.Nodup.sublist ?_ hnd
      rw [List.append_assoc]
      refine List.Sublist.append_left ?_ _
      exact List.Sublist.append_right (fieldEntry_keys_sublist field month days) _
    simp only [computeEntriesGo]
    rw [computeMonth_spec month days st hwfh (hmonth st.1 hnd1) (hmonth st.2.1 hnd2)
      (hmonth st.2.2 hnd3)]
    have := ih (st.1 ++ days.filterMap (fieldEntry "Max TemperatureC" month),
                st.2.1 ++ days.filterMap (fieldEntry "Min TemperatureC" month),
                st.2.2 ++ days.filterMap (fieldEntry "Max Humidity" month))
      hwft (hnext st.1 _ hnd1) (hnext st.2.1 _ hnd2) (hnext st.2.2 _ hnd3)
    show computeEntriesGo
        (st.1 ++ days.filterMap (fieldEntry "Max TemperatureC" month),
         st.2.1 ++ days.filterMap (fieldEntry "Min TemperatureC" month),
         st.2.2 ++ days.filterMap (fieldEntry "Max Humidity" month)) t = _
    rw [this]
    simp [specEntries, List.append_assoc]

theorem computeEntries_spec (r : Yearly) (hwf : WFyearly r = true)
    (hnd : (labelsOf r).Nodup) :
    computeEntries r = .ok (specEntries "Max TemperatureC" r,
      specEntries "Min TemperatureC" r, specEntries "Max Humidity" r) := by
  have := computeEntriesGo_spec r ([], [], []) hwf (by simpa using hnd)
    (by simpa using hnd) (by simpa using hnd)
  simpa [computeEntries] using this

theorem compute_spec (r : Yearly) (hwf : WFyearly r = true)
    (hnd : (labelsOf r).Nodup)
    (h1 : specEntries "Max TemperatureC" r ≠ [])
    (h2 : specEntries "Min TemperatureC" r ≠ [])
    (h3 : specEntries "Max Humidity" r ≠ []) :
    ∃ c : ExtSummary, compute r = .ok c ∧
      FirstMax (specEntries "Max TemperatureC" r) (c.max_date, c.max_temp) ∧
      FirstMin (specEntries "Min TemperatureC" r) (c.min_date, c.min_temp) ∧
      FirstMax (specEntries "Max Humidity" r) (c.humidity_date, c.max_humidity) := by
  simp only [compute, computeEntries_spec r hwf hnd]
  cases hm1 : pyMaxList (specEntries "Max TemperatureC" r) with
  | none =>
    exfalso
    cases hl : specEntries "Max TemperatureC" r with
    | nil => exact h1 hl
    | cons x xs => rw [hl] at hm1; cases hm1
  | some maxE =>
    cases hm2 : pyMinList (specEntries "Min TemperatureC" r) with
    | none =>
      exfalso
      cases hl : specEntries "Min TemperatureC" r with
      | nil => exact h2 hl
      | cons x xs => rw [hl] at hm2; cases hm2
    | some minE =>
      cases hm3 : pyMaxList (specEntries "Max Humidity" r) with
      | none =>
        exfalso
        cases hl : specEntries "Max Humidity" r with
        | nil => exact h3 hl
        | cons x xs => rw [hl] at hm3; cases hm3
      | some humE =>
        refine ⟨⟨maxE.2, maxE.1, minE.2, minE.1, humE.2, humE.1⟩, rfl, ?_, ?_, ?_⟩
        · exact pyMaxList_firstMax _ _ hm1
        · exact pyMinList_firstMin _ _ hm2
        · exact pyMaxList_firstMax _ _ hm3
/-- C1: on well-formed Yearly Readings with distinct (day, month) labels
and a non-empty entry list for each of the three fields, the yearly
extremes reduction succeeds and each returned label/value pair is the
first entry, in file-then-row iteration order, attaining the maximum (for
max-temperature and max-humidity) or the minimum (for min-temperature):
everything earlier in the entry list is strictly worse, everything is no
better. -/
theorem c1_tie_break_first_wins (r : Yearly) (hwf : WFyearly r = true)
    (hnd : (labelsOf r).Nodup)
    (h1 : specEntries "Max TemperatureC" r ≠ [])
    (h2 : specEntries "Min TemperatureC" r ≠ [])
    (h3 : specEntries "Max Humidity" r ≠ []) :
    ∃ c : ExtSummary, compute r = .ok c ∧
      FirstMax (specEntries "Max TemperatureC" r) (c.max_date, c.max_temp) ∧
      FirstMin (specEntries "Min TemperatureC" r) (c.min_date, c.min_temp) ∧
      FirstMax (specEntries "Max Humidity" r) (c.humidity_date, c.max_humidity) :=
  compute_spec r hwf hnd h1 h2 h3

/-- Witness for C1: on `tieEx` the July days 1 and 2 tie at 45°C and the
winner is `"1 July"`, the first in iteration order; the min tie between
days 2 and 3 goes to `"2 July"` and the humidity tie between days 1 and 3
to `"1 July"`. -/
theorem c1_tie_break_first_wins_witness :
    (WFyearly tieEx = true ∧ (labelsOf tieEx).Nodup) ∧
      (∃ c : ExtSummary, compute tieEx = .ok c ∧
        FirstMax (specEntries "Max TemperatureC" tieEx) (c.max_date, c.max_temp) ∧
        FirstMin (specEntries "Min TemperatureC" tieEx) (c.min_date, c.min_temp) ∧
        FirstMax (specEntries "Max Humidity" tieEx) (c.humidity_date, c.max_humidity)) ∧
      compute tieEx = .ok ⟨45, "1 July", 1, "2 July", 70, "1 July"⟩ :=
  ⟨⟨by decide, by decide⟩,
   c1_tie_break_first_wins tieEx (by decide) (by decide) (by decide) (by decide) (by decide),
   by decide⟩

theorem specEntries_mem_elim (field : String) (r : Yearly) (a : String × Int)
    (h : a ∈ specEntries field r) :
    ∃ m days d row q, (m, days) ∈ r ∧ (d, row) ∈ days ∧
      lookup? row field = some (.num q) ∧ a = (day_label d m, truncQ q) := by
  simp only [specEntries, List.mem_flatMap] at h
  obtain ⟨p, hp, ha⟩ := h
  rw [List.mem_filterMap] at ha
  obtain ⟨b, hb, hfe⟩ := ha
  simp only [fieldEntry] at hfe
  cases hl : lookup? b.2 field with
  | none => rw [hl] at hfe; cases hfe
  | some v =>
    rw [hl] at hfe
    cases v with
    | str s => cases hfe
    | num q =>
      injection hfe with hfe
      exact ⟨p.1, p.2, b.1, b.2, q, by simpa using hp, by simpa using hb, hl, hfe.symm⟩

theorem specEntries_mem_intro (field : String) (r : Yearly) (m : String)
    (days : Monthly) (d : Nat) (row : Row) (q : Q)
    (hm : (m, days) ∈ r) (hd : (d, row) ∈ days)
    (hl : lookup? row field = some (.num q)) :
    (day_label d m, truncQ q) ∈ specEntries field r := by
  simp only [specEntries, List.mem_flatMap]
  refine ⟨(m, days), hm, ?_⟩
  rw [List.mem_filterMap]
  exact ⟨(d, row), hd, by simp [fieldEntry, hl]⟩

theorem firstMax_mem (l : List (String × Int)) (p : String × Int)
    (h : FirstMax l p) : p ∈ l := by
  obtain ⟨l1, l2, he, _, _⟩ := h
  rw [he]
  exact List.mem_append_right l1 (List.mem_cons_self p l2)

theorem firstMin_mem (l : List (String × Int)) (p : String × Int)
    (h : FirstMin l p) : p ∈ l := by
  obtain ⟨l1, l2, he, _, _⟩ := h
  rw [he]
  exact List.mem_append_right l1 (List.mem_cons_self p l2)
/-- C9: on well-formed Yearly Readings (distinct labels, non-empty entry
lists) the summary's `max_temp`, `min_temp` and `max_humidity` are
toward-zero truncations of stored float readings whose (day, month) label
is the returned date, and every stored float of the field has truncation
no better than the returned value — the comparison happens on the
truncated integers, so a strictly-largest raw float can lose to an earlier
day with the same truncation. -/
theorem c9_truncated_comparison (r : Yearly) (hwf : WFyearly r = true)
    (hnd : (labelsOf r).Nodup)
    (h1 : specEntries "Max TemperatureC" r ≠ [])
    (h2 : specEntries "Min TemperatureC" r ≠ [])
    (h3 : specEntries "Max Humidity" r ≠ []) :
    ∃ c : ExtSummary, compute r = .ok c ∧
      (∃ m days d row q, (m, days) ∈ r ∧ (d, row) ∈ days ∧
        lookup? row "Max TemperatureC" = some (.num q) ∧
        c.max_date = day_label d m ∧ c.max_temp = truncQ q) ∧
      (∀ m days d row q, (m, days) ∈ r → (d, row) ∈ days →
        lookup? row "Max TemperatureC" = some (.num q) → truncQ q ≤ c.max_temp) ∧
      (∃ m days d row q, (m, days) ∈ r ∧ (d, row) ∈ days ∧
        lookup? row "Min TemperatureC" = some (.num q) ∧
        c.min_date = day_label d m ∧ c.min_temp = truncQ q) ∧
      (∀ m days d row q, (m, days) ∈ r → (d, row) ∈ days →
        lookup? row "Min TemperatureC" = some (.num q) → c.min_temp ≤ truncQ q) ∧
      (∃ m days d row q, (m, days) ∈ r ∧ (d, row) ∈ days ∧
        lookup? row "Max Humidity" = some (.num q) ∧
        c.humidity_date = day_label d m ∧ c.max_humidity = truncQ q) ∧
      (∀ m days d row q, (m, days) ∈ r → (d, row) ∈ days →
        lookup? row "Max Humidity" = some (.num q) → truncQ q ≤ c.max_humidity) := by
  obtain ⟨c, hc, hfmax, hfmin, hfhum⟩ := compute_spec r hwf hnd h1 h2 h3
  refine ⟨c, hc, ?_, ?_, ?_, ?_, ?_, ?_⟩
  · obtain ⟨m, days, d, row, q, hm, hd, hl, heq⟩ :=
      specEntries_mem_elim _ r _ (firstMax_mem _ _ hfmax)
    injection heq with heq1 heq2
    exact ⟨m, days, d, row, q, hm, hd, hl, heq1, heq2⟩
  · intro m days d row q hm hd hl
    obtain ⟨l1, l2, he, _, hall⟩ := hfmax
    have := hall _ (specEntries_mem_intro "Max TemperatureC" r m days d row q hm hd hl)
    simpa using this
  · obtain ⟨m, days, d, row, q, hm, hd, hl, heq⟩ :=
      specEntries_mem_elim _ r _ (firstMin_mem _ _ hfmin)
    injection heq with heq1 heq2
    exact ⟨m, days, d, row, q, hm, hd, hl, heq1, heq2⟩
  · intro m days d row q hm hd hl
    obtain ⟨l1, l2, he, _, hall⟩ := hfmin
    have := hall _ (specEntries_mem_intro "Min TemperatureC" r m days d row q hm hd hl)
    simpa using this
  · obtain ⟨m, days, d, row, q, hm, hd, hl, heq⟩ :=
      specEntries_mem_elim _ r _ (firstMax_mem _ _ hfhum)
    injection heq with heq1 heq2
    exact ⟨m, days, d, row, q, hm, hd, hl, heq1, heq2⟩
  · intro m days d row q hm hd hl
    obtain ⟨l1, l2, he, _, hall⟩ := hfhum
    have := hall _ (specEntries_mem_intro "Max Humidity" r m days d row q hm hd hl)
    simpa using this

/-- Witness for C9: on `truncEx` both July days truncate to max 45 and the
winner is `"1 July"` even though day 2's raw 45.9 is strictly larger. -/
theorem c9_truncated_comparison_witness :
    (WFyearly truncEx = true ∧ truncQ ⟨459, 10⟩ = truncQ ⟨452, 10⟩) ∧
      (∃ c : ExtSummary, compute truncEx = .ok c ∧
        (∃ m days d row q, (m, days) ∈ truncEx ∧ (d, row) ∈ days ∧
          lookup? row "Max TemperatureC" = some (.num q) ∧
          c.max_date = day_label d m ∧ c.max_temp = truncQ q) ∧
        (∀ m days d row q, (m, days) ∈ truncEx → (d, row) ∈ days →
          lookup? row "Max TemperatureC" = some (.num q) → truncQ q ≤ c.max_temp) ∧
        (∃ m days d row q, (m, days) ∈ truncEx ∧ (d, row) ∈ days ∧
          lookup? row "Min TemperatureC" = some (.num q) ∧
          c.min_date = day_label d m ∧ c.min_temp = truncQ q) ∧
        (∀ m days d row q, (m, days) ∈ truncEx → (d, row) ∈ days →
          lookup? row "Min TemperatureC" = some (.num q) → c.min_temp ≤ truncQ q) ∧
        (∃ m days d row q, (m, days) ∈ truncEx ∧ (d, row) ∈ days ∧
          lookup? row "Max Humidity" = some (.num q) ∧
          c.humidity_date = day_label d m ∧ c.max_humidity = truncQ q) ∧
        (∀ m days d row q, (m, days) ∈ truncEx → (d, row) ∈ days →
          lookup? row "Max Humidity" = some (.num q) → truncQ q ≤ c.max_humidity)) ∧
      compute truncEx = .ok ⟨45, "1 July", 10, "1 July", 50, "1 July"⟩ :=
  ⟨⟨by decide, by decide⟩,
   c9_truncated_comparison truncEx (by decide) (by decide) (by decide) (by decide) (by decide),
   by decide⟩
/-- C2: the Pipeline Driver returns exactly one Rendered Report per input
date, in input order, when every date processes; and when the first
failing date raises, the whole batch propagates that error — no report is
produced for it or any later date (no catch-and-continue). -/
theorem c2_driver_batch :
    (∀ (fs : FS) (dates : List String) (cs : CalcStrategy) (rs : ReportStrategy)
      (yearly : Bool),
      (∀ d ∈ dates, ∃ rep, process_one fs d cs rs yearly = .ok rep) →
      ∃ l, process_args fs dates cs rs yearly = .ok l ∧
        List.Forall₂ (fun d rep => process_one fs d cs rs yearly = .ok rep) dates l) ∧
    (∀ (fs : FS) (pre : List String) (d : String) (post : List String)
      (cs : CalcStrategy) (rs : ReportStrategy) (yearly : Bool) (e : Err),
      (∀ x ∈ pre, ∃ rep, process_one fs x cs rs yearly = .ok rep) →
      process_one fs d cs rs yearly = .error e →
      process_args fs (pre ++ d :: post) cs rs yearly = .error e) := by
  constructor
  · intro fs dates cs rs yearly
    induction dates with
    | nil => intro _; exact ⟨[], rfl, List.Forall₂.nil⟩
    | cons d t ih =>
      intro h
      obtain ⟨rep, hrep⟩ := h d (List.mem_cons_self d t)
      obtain ⟨l, hl, hf⟩ := ih (fun x hx => h x (List.mem_cons_of_mem d hx))
      refine ⟨rep :: l, ?_, List.Forall₂.cons hrep hf⟩
      simp only [process_args, hrep, hl]
  · intro fs pre d post cs rs yearly e
    induction pre with
    | nil =>
      intro _ herr
      simp only [List.nil_append, process_args, herr]
    | cons x pre' ih =>
      intro h herr
      obtain ⟨rep, hrep⟩ := h x (List.mem_cons_self x pre')
      have := ih (fun y hy => h y (List.mem_cons_of_mem x hy)) herr
      show process_args fs (x :: (pre' ++ d :: post)) cs rs yearly = .error e
      simp only [process_args, hrep]
      rw [this]

/-- Witness for C2: with July and September files present, the good batch
returns one report per date in order, and inserting the unmatched August
date makes the whole batch abort with `noMatchingFile`. -/
theorem c2_driver_batch_witness :
    (∃ l, process_args fs2Ex ["2011/7", "2011/9"] .minMax .singleBar false = .ok l ∧
      List.Forall₂ (fun d rep => process_one fs2Ex d .minMax .singleBar false = .ok rep)
        ["2011/7", "2011/9"] l) ∧
    process_args fs2Ex ["2011/7", "2011/8", "2011/9"] .minMax .singleBar false =
      .error .noMatchingFile := by
  constructor
  · refine c2_driver_batch.1 fs2Ex ["2011/7", "2011/9"] .minMax .singleBar false ?_
    intro d hd
    rcases List.mem_cons.mp hd with rfl | hd
    · exact ⟨.emptyR, by decide⟩
    · rcases List.mem_cons.mp hd with rfl | hd
      · exact ⟨.emptyR, by decide⟩
      · cases hd
  · refine c2_driver_batch.2 fs2Ex ["2011/7"] "2011/8" ["2011/9"] .minMax .singleBar
      false .noMatchingFile ?_ (by decide)
    intro x hx
    rcases List.mem_cons.mp hx with rfl | hx
    · exact ⟨.emptyR, by decide⟩
    · cases hx

theorem get_yearly_readings_go_empty_mem (fs : FS) (f : String)
    (hempty : fs.content f = []) :
    ∀ (l : List String) (acc : Yearly), f ∈ l →
      ∃ e, get_yearly_readings_go fs acc l = .error e := by
  intro l
  induction l with
  | nil => intro acc hmem; cases hmem
  | cons g t ih =>
    intro acc hmem
    cases hc : fs.content g with
    | nil => exact ⟨.indexError, by simp [get_yearly_readings_go, hc]⟩
    | cons r0 rest =>
      have hft : f ∈ t := by
        rcases List.mem_cons.mp hmem with rfl | hft
        · rw [hempty] at hc; cases hc
        · exact hft
      cases hpkt : lookup? r0 "PKT" with
      | none => exact ⟨.keyError, by simp [get_yearly_readings_go, hc, hpkt]⟩
      | some pkt =>
        cases hymd : parseYmd pkt with
        | none => exact ⟨.dateParseError, by simp [get_yearly_readings_go, hc, hpkt, hymd]⟩
        | some ymd =>
          obtain ⟨y, m, dd⟩ := ymd
          cases hmfr : monthly_from_rows (fs.content g) with
          | error e =>
            rw [hc] at hmfr
            exact ⟨e, by simp [get_yearly_readings_go, hc, hpkt, hymd, hmfr]⟩
          | ok monthly =>
            rw [hc] at hmfr
            simp only [get_yearly_readings_go, hc, hpkt, hymd, hmfr]
            exact ih _ hft

/-- C10: a file matched by the yearly lookup that parses to no data rows
makes the whole `get_yearly_readings` fail: the month name is derived from
the first parsed row, which does not exist (an IndexError, not one of the
spec's named error kinds), so no Yearly Readings are returned. -/
theorem c10_empty_matched_file (fs : FS) (date : String) (f : String)
    (hmem : f ∈ get_files fs date) (hempty : fs.content f = []) :
    ∃ e, get_yearly_readings fs date = .error e :=
  get_yearly_readings_go_empty_mem fs f hempty (get_files fs date) [] hmem
/-- Witness for C10: the data-less August file aborts the 2011 yearly
lookup, concretely with the modelled IndexError. -/
theorem c10_empty_matched_file_witness :
    ("2011_Aug.txt" ∈ get_files fs10Ex "2011" ∧ fs10Ex.content "2011_Aug.txt" = []) ∧
      (∃ e, get_yearly_readings fs10Ex "2011" = .error e) ∧
      get_yearly_readings fs10Ex "2011" = .error .indexError :=
  ⟨⟨by decide, by decide⟩,
   c10_empty_matched_file fs10Ex "2011" "2011_Aug.txt" (by decide) (by decide),
   by decide⟩

theorem daySort_of_chain (l : List (Nat × Int × Int))
    (h : List.Chain' (fun a b => a.1 < b.1) l) : daySort l = l := by
  induction l with
  | nil => rfl
  | cons p t ih =>
    have ht : List.Chain' (fun a b : Nat × Int × Int => a.1 < b.1) t := h.tail
    simp only [daySort]
    rw [ih ht]
    cases t with
    | nil => rfl
    | cons q t' =>
      have hpq : p.1 < q.1 := (List.chain'_cons.mp h).1
      simp [insertDay, le_of_lt hpq]

/-- Counterexample to C3 as stated: with the day keys inserted out of
order, both bar renders print the lines in insertion order, not in
ascending day order (rendering the summary is not the same as rendering
its day-sorted version). -/
theorem c3_ascending_counterexample :
    generate_multiple_bar_report "2011/7" (.minMax [(2, 1, 1), (1, 1, 1)]) ≠
      generate_multiple_bar_report "2011/7" (.minMax (daySort [(2, 1, 1), (1, 1, 1)])) ∧
    generate_single_bar_report "2011/7" (.minMax [(2, 1, 1), (1, 1, 1)]) ≠
      generate_single_bar_report "2011/7" (.minMax (daySort [(2, 1, 1), (1, 1, 1)])) := by
  decide

/-- C3 (amended): both bar renders print their per-day lines in the
Summary's insertion order; when the Summary's day keys are already in
ascending order — as the reader produces them from well-formed input —
the printed lines are in ascending day order (rendering the summary and
rendering its day-sorted version agree). The implementation does not sort,
so out-of-order summaries print out of order. -/
theorem c3_ascending_amended (date : String) (days : List (Nat × Int × Int))
    (h : List.Chain' (fun a b => a.1 < b.1) days) :
    generate_multiple_bar_report date (.minMax days) =
      generate_multiple_bar_report date (.minMax (daySort days)) ∧
    generate_single_bar_report date (.minMax days) =
      generate_single_bar_report date (.minMax (daySort days)) := by
  rw [daySort_of_chain days h]
  exact ⟨rfl, rfl⟩

/-- Witness for the amended C3 on a concrete ascending summary. -/
theorem c3_ascending_amended_witness :
    List.Chain' (fun a b : Nat × Int × Int => a.1 < b.1) [(1, 5, 2), (2, 6, 3)] ∧
      (generate_multiple_bar_report "2011/7" (.minMax [(1, 5, 2), (2, 6, 3)]) =
        generate_multiple_bar_report "2011/7" (.minMax (daySort [(1, 5, 2), (2, 6, 3)])) ∧
      generate_single_bar_report "2011/7" (.minMax [(1, 5, 2), (2, 6, 3)]) =
        generate_single_bar_report "2011/7" (.minMax (daySort [(1, 5, 2), (2, 6, 3)]))) :=
  ⟨by simp, c3_ascending_amended "2011/7" [(1, 5, 2), (2, 6, 3)] (by simp)⟩

theorem natDigs_no_plus (fuel : Nat) : ∀ (n : Nat) (acc : List Char),
    '+' ∉ acc → '+' ∉ natDigs fuel n acc := by
  induction fuel with
  | zero => intro n acc hacc; simpa [natDigs] using hacc
  | succ f ih =>
    intro n acc hacc
    have hr : n % 10 < 10 := Nat.mod_lt _ (by norm_num)
    have hd : Char.ofNat (48 + n % 10) ≠ '+' := by
      set r := n % 10 with hrdef
      interval_cases r <;> decide
    simp only [natDigs]
    by_cases hz : n / 10 = 0
    · rw [if_pos hz]
      intro hmem
      rcases List.mem_cons.mp hmem with hmem | hmem
      · exact hd hmem.symm
      · exact hacc hmem
    · rw [if_neg hz]
      refine ih (n / 10) _ ?_
      intro hmem
      rcases List.mem_cons.mp hmem with hmem | hmem
      · exact hd hmem.symm
      · exact hacc hmem

theorem natStr_no_plus (n : Nat) : plusCountN (natStr n) = 0 := by
  rw [plusCountN, List.count_eq_zero]
  exact natDigs_no_plus (n + 1) n [] (by simp)

theorem plusCountN_append (s t : String) :
    plusCountN (s ++ t) = plusCountN s + plusCountN t := by
  cases s with
  | mk l1 =>
    cases t with
    | mk l2 =>
      show (l1 ++ l2).count '+' = l1.count '+' + l2.count '+'
      exact List.count_append '+' l1 l2

theorem intStr_no_plus (i : Int) : plusCountN (intStr i) = 0 := by
  cases i with
  | ofNat m => exact natStr_no_plus m
  | negSucc m =>
    show plusCountN ("-" ++ natStr (m + 1)) = 0
    rw [plusCountN_append, natStr_no_plus]
    decide

theorem pad2_no_plus (d : Nat) : plusCountN (pad2 d) = 0 := by
  rw [pad2]
  by_cases h : d < 10
  · rw [if_pos h, plusCountN_append, natStr_no_plus]
    decide
  · rw [if_neg h]
    exact natStr_no_plus d

theorem plusCountN_plusRun (n : Int) : plusCountN (plusRun n) = n.toNat := by
  show (List.replicate n.toNat '+').count '+' = n.toNat
  simp

theorem plusCountN_RED : plusCountN RED = 0 := by decide

theorem plusCountN_BLUE : plusCountN BLUE = 0 := by decide

theorem plusCountN_RESET : plusCountN RESET = 0 := by decide

theorem plusCountN_space : plusCountN " " = 0 := by decide

theorem plusCountN_C : plusCountN "C" = 0 := by decide

theorem mbMaxLine_count (day : Nat) (mx : Int) :
    plusCountN (mbMaxLine day mx) = mx.toNat := by
  simp only [mbMaxLine, plusCountN_append, pad2_no_plus, intStr_no_plus, plusCountN_plusRun,
    plusCountN_RED, plusCountN_RESET, plusCountN_space, plusCountN_C]
  omega

theorem mbMinLine_count (day : Nat) (mn : Int) :
    plusCountN (mbMinLine day mn) = mn.toNat := by
  simp only [mbMinLine, plusCountN_append, pad2_no_plus, intStr_no_plus, plusCountN_plusRun,
    plusCountN_BLUE, plusCountN_RESET, plusCountN_space, plusCountN_C]
  omega

/-- Counterexample to C4 as stated: for the day (1, max 5, min −3) the
dual-bar render prints lines whose marker counts are [0, 5, 0] — the min
line has a run of length 0, not −3, because `'+' * n` is empty for a
negative count. -/
theorem c4_bar_length_counterexample :
    (generate_multiple_bar_report "2011/7" (.minMax [(1, 5, -3)])).map
        (fun p => (p.1.map plusCountN, p.2))
      = .ok ([0, 5, 0], .emptyR) ∧ ((0 : Int) ≠ (-3 : Int)) := by decide

/-- C4 (amended): for every day of the Summary the dual-bar render prints
two bar lines whose runs of marker characters have length equal to the
day's integer value clamped below at zero (`Int.toNat`: a negative value
draws an empty bar), and the render returns an empty structured result. -/
theorem c4_bar_length_amended (date : String) (y m : Nat)
    (days : List (Nat × Int × Int)) (hp : parseYm date = some (y, m)) :
    generate_multiple_bar_report date (.minMax days) =
      .ok (barHeader y m ::
        days.flatMap (fun p => [mbMaxLine p.1 p.2.1, mbMinLine p.1 p.2.2]), .emptyR) ∧
    ∀ p ∈ days, plusCountN (mbMaxLine p.1 p.2.1) = p.2.1.toNat ∧
      plusCountN (mbMinLine p.1 p.2.2) = p.2.2.toNat := by
  constructor
  · simp [generate_multiple_bar_report, hp]
  · intro p _
    exact ⟨mbMaxLine_count p.1 p.2.1, mbMinLine_count p.1 p.2.2⟩

/-- Witness for the amended C4 on a concrete summary with a negative min
value. -/
theorem c4_bar_length_amended_witness :
    parseYm "2011/7" = some (2011, 7) ∧
      (generate_multiple_bar_report "2011/7" (.minMax [(1, 5, -3)]) =
        .ok (barHeader 2011 7 ::
          ([(1, 5, -3)] : List (Nat × Int × Int)).flatMap
            (fun p => [mbMaxLine p.1 p.2.1, mbMinLine p.1 p.2.2]), .emptyR) ∧
      ∀ p ∈ ([(1, 5, -3)] : List (Nat × Int × Int)),
        plusCountN (mbMaxLine p.1 p.2.1) = p.2.1.toNat ∧
        plusCountN (mbMinLine p.1 p.2.2) = p.2.2.toNat) :=
  ⟨by decide, c4_bar_length_amended "2011/7" 2011 7 [(1, 5, -3)] (by decide)⟩

end Weatherman
